import Mathlib

set_option autoImplicit false

/-!
Verification development for the whirlpools rust SDK instruction-assembly
engine (`rust-sdk/whirlpool/src/{create_pool,decrease_liquidity,pool,token}.rs`).

The Rust code is shallowly embedded: machine integers become `Nat`/`Int`,
fallible operations (RPC reads, account decoding, `assert!`, panics on
out-of-bounds indexing or missing `HashMap` keys) become `Except String`,
and every external collaborator (the RPC client, the process-wide default
configuration from `config.rs`, the quote-math library, keypair generation,
and the system clock) is a field of an explicit `Env` record passed to each
entry point.  Solana `Pubkey`s are byte lists ordered lexicographically,
matching `[u8; 32]`'s derived ordering.
-/

/-- A ledger address: the byte representation of a Solana `Pubkey`
(`[u8; 32]`, compared byte-wise). -/
abbrev Pubkey := List Nat

/-- Byte-wise (lexicographic) strict order on pubkeys, as Rust's derived
`Ord` on `[u8; 32]` / `Pubkey::lt`. -/
def bytesLt : Pubkey → Pubkey → Bool
  | [], [] => false
  | [], _ :: _ => true
  | _ :: _, [] => false
  | a :: as, b :: bs => a < b || (a == b && bytesLt as bs)

/-- `Pubkey::default()`: the all-zero address. -/
def PUBKEY_DEFAULT : Pubkey := List.replicate 32 0

/-- `NATIVE_MINT` constant from `token.rs` (the wrapped-SOL mint bytes). -/
def NATIVE_MINT : Pubkey :=
  [6, 155, 136, 87, 254, 171, 129, 132, 251, 104, 127, 99, 70, 24, 192, 53,
   218, 196, 57, 220, 26, 235, 59, 85, 152, 160, 240, 0, 0, 0, 0, 1]

/-- The SPL token program id (imported constant; exact byte value is
irrelevant to the claims, kept as an opaque distinct address). -/
def TOKEN_PROGRAM_ID : Pubkey := [200]

/-- `order_mints` from `token.rs`: sorts a mint pair into canonical
(byte-wise ascending) order. -/
def order_mints (mint1 mint2 : Pubkey) : Pubkey × Pubkey :=
  if bytesLt mint1 mint2 then (mint1, mint2) else (mint2, mint1)

theorem bytesLt_asymm : ∀ a b : Pubkey, bytesLt a b = true → bytesLt b a = false := by
  intro a
  induction a with
  | nil =>
    intro b h
    cases b with
    | nil => simp [bytesLt] at h
    | cons y ys => simp [bytesLt]
  | cons x xs ih =>
    intro b h
    cases b with
    | nil => simp [bytesLt] at h
    | cons y ys =>
      simp only [bytesLt, Bool.or_eq_true, Bool.and_eq_true, beq_iff_eq,
        decide_eq_true_eq] at h
      rcases h with h | ⟨hxy, hlt⟩
      · have h1 : decide (y < x) = false := by simp; omega
        have h2 : (y == x) = false := by simp; omega
        simp [bytesLt, h1, h2]
      · subst hxy
        simp [bytesLt, ih ys hlt]

theorem bytesLt_conn : ∀ a b : Pubkey, bytesLt a b = false → bytesLt b a = false → a = b := by
  intro a
  induction a with
  | nil =>
    intro b h1 _
    cases b with
    | nil => rfl
    | cons y ys => simp [bytesLt] at h1
  | cons x xs ih =>
    intro b h1 h2
    cases b with
    | nil => simp [bytesLt] at h2
    | cons y ys =>
      simp only [bytesLt, Bool.or_eq_false_iff] at h1 h2
      obtain ⟨hx1, hx2⟩ := h1
      obtain ⟨hy1, hy2⟩ := h2
      have hxy : x = y := by
        simp only [decide_eq_false_iff_not] at hx1 hy1
        omega
      subst hxy
      simp only [beq_self_eq_true, Bool.true_and] at hx2 hy2
      rw [ih ys hx2 hy2]

theorem order_mints_comm (a b : Pubkey) : order_mints a b = order_mints b a := by
  unfold order_mints
  rcases hab : bytesLt a b with _ | _
  · rcases hba : bytesLt b a with _ | _
    · have := bytesLt_conn a b hab hba
      subst this
      rfl
    · simp
  · have := bytesLt_asymm a b hab
    simp [this]

theorem order_mints_fst_le (a b : Pubkey) :
    bytesLt (order_mints a b).2 (order_mints a b).1 = false := by
  unfold order_mints
  rcases hab : bytesLt a b with _ | _
  · simp [hab]
  · simp [bytesLt_asymm a b hab]

theorem order_mints_fst_lt (a b : Pubkey) (h : a ≠ b) :
    bytesLt (order_mints a b).1 (order_mints a b).2 = true := by
  unfold order_mints
  rcases hab : bytesLt a b with _ | _
  · rcases hba : bytesLt b a with _ | _
    · exact absurd (bytesLt_conn a b hab hba) h
    · simp [hba]
  · simp [hab]

theorem order_mints_mem (a b : Pubkey) :
    order_mints a b = (a, b) ∨ order_mints a b = (b, a) := by
  unfold order_mints
  rcases bytesLt a b with _ | _ <;> simp

/-! ## Ledger data model -/

/-- One epoch-scoped transfer-fee entry of a `TransferFeeConfig` extension. -/
structure EpochFee where
  epoch : Nat
  transfer_fee_basis_points : Nat
  maximum_fee : Nat
deriving DecidableEq

/-- `spl_token_2022` `TransferFeeConfig` extension: an older and a newer
epoch-scoped fee; `get_epoch_fee` picks by the current epoch. -/
structure TransferFeeConfig where
  older_transfer_fee : EpochFee
  newer_transfer_fee : EpochFee
deriving DecidableEq

/-- `TransferFeeConfig::get_epoch_fee`. -/
def getEpochFee (c : TransferFeeConfig) (epoch : Nat) : EpochFee :=
  if c.newer_transfer_fee.epoch ≤ epoch then c.newer_transfer_fee
  else c.older_transfer_fee

/-- `orca_whirlpools_core::TransferFee` value object. -/
structure TransferFee where
  fee_bps : Nat
  max_fee : Nat
deriving DecidableEq

/-- Decoded SPL mint account state (the fields this engine reads). -/
structure MintData where
  decimals : Nat
  transfer_fee_config : Option TransferFeeConfig
deriving DecidableEq

/-- Decoded SPL token account state (the fields this engine reads). -/
structure TokenAccountData where
  amount : Nat
deriving DecidableEq

/-- `orca_whirlpools_client` `WhirlpoolRewardInfo`. -/
structure WhirlpoolRewardInfo where
  mint : Pubkey
  vault : Pubkey
  authority : Pubkey
  emissions_per_second_x64 : Nat
  growth_global_x64 : Nat
deriving DecidableEq

/-- Decoded `Whirlpool` account state. -/
structure WhirlpoolData where
  discriminator : List Nat
  whirlpools_config : Pubkey
  whirlpool_bump : List Nat
  tick_spacing : Nat
  tick_spacing_seed : List Nat
  fee_rate : Nat
  protocol_fee_rate : Nat
  liquidity : Nat
  sqrt_price : Nat
  tick_current_index : Int
  protocol_fee_owed_a : Nat
  protocol_fee_owed_b : Nat
  token_mint_a : Pubkey
  token_vault_a : Pubkey
  fee_growth_global_a : Nat
  token_mint_b : Pubkey
  token_vault_b : Pubkey
  fee_growth_global_b : Nat
  reward_last_updated_timestamp : Nat
  reward_infos : List WhirlpoolRewardInfo
deriving DecidableEq

/-- Decoded `Position` account state (the fields this engine reads). -/
structure PositionData where
  whirlpool : Pubkey
  tick_lower_index : Int
  tick_upper_index : Int
deriving DecidableEq

/-- Decoded `FeeTier` account state. -/
structure FeeTierData where
  tick_spacing : Nat
  default_fee_rate : Nat
deriving DecidableEq

/-- Decoded `WhirlpoolsConfig` account state (the field this engine reads). -/
structure WhirlpoolsConfigData where
  default_protocol_fee_rate : Nat
deriving DecidableEq

/-- The decoded content of an account's data bytes.  Decoding a fixed
byte layout is modelled as a match on this tag: a `decode`/`unpack` call
succeeds exactly when the tag is the expected one (wrong discriminator or
layout → `DecodeMismatch`). -/
inductive AccountData where
  | mint (m : MintData)
  | tokenAccount (t : TokenAccountData)
  | whirlpool (w : WhirlpoolData)
  | position (p : PositionData)
  | feeTier (f : FeeTierData)
  | whirlpoolsConfig (c : WhirlpoolsConfigData)
  | rawData (bytes : List Nat)
deriving DecidableEq

/-- A fetched account: owning program plus (decoded) data. -/
structure AccountInfo where
  owner : Pubkey
  data : AccountData
deriving DecidableEq

/-- `Mint::unpack` (panics/errors when the data is not a mint layout). -/
def unpackMint : AccountData → Except String MintData
  | .mint m => .ok m
  | _ => .error "failed to unpack Mint"

/-- `Account::unpack` for SPL token accounts. -/
def unpackTokenAccount : AccountData → Except String TokenAccountData
  | .tokenAccount t => .ok t
  | _ => .error "failed to unpack Account"

/-- `Whirlpool::from_bytes`. -/
def whirlpoolFromBytes : AccountData → Except String WhirlpoolData
  | .whirlpool w => .ok w
  | _ => .error "failed to decode Whirlpool"

/-- `Position::from_bytes`. -/
def positionFromBytes : AccountData → Except String PositionData
  | .position p => .ok p
  | _ => .error "failed to decode Position"

/-- `FeeTier::from_bytes`. -/
def feeTierFromBytes : AccountData → Except String FeeTierData
  | .feeTier f => .ok f
  | _ => .error "failed to decode FeeTier"

/-- `WhirlpoolsConfig::from_bytes`. -/
def whirlpoolsConfigFromBytes : AccountData → Except String WhirlpoolsConfigData
  | .whirlpoolsConfig c => .ok c
  | _ => .error "failed to decode WhirlpoolsConfig"

/-- Turn an `Option` into an `Except` with the given message, as the Rust
`ok_or` / RPC "account not found" handling. -/
def req {α : Type} (o : Option α) (msg : String) : Except String α :=
  match o with
  | some a => .ok a
  | none => .error msg

/-! ## Instructions -/

/-- The instruction batch shapes this engine emits.  Each constructor
records the accounts/arguments exactly as the corresponding Rust call site
passes them. -/
inductive Instruction where
  | initPoolV2 (whirlpools_config token_mint_a token_mint_b token_badge_a
      token_badge_b funder whirlpool token_vault_a token_vault_b fee_tier
      token_program_a token_program_b : Pubkey)
      (initial_sqrt_price : Nat) (tick_spacing : Nat)
  | initTickArrayIx (whirlpool tick_array funder : Pubkey)
      (start_tick_index : Int)
  | createAta (funding ata mint token_program : Pubkey)
  | createAccount (funding new_account : Pubkey) (lamports space : Nat)
      (owner_program : Pubkey)
  | initAccount3 (token_program account mint owner : Pubkey)
  | createAccountWithSeed (funding new_account token_program : Pubkey)
  | closeAccount (account dest : Pubkey)
  | systemTransfer (funding dest : Pubkey) (lamports : Nat)
  | syncNative (token_program account : Pubkey)
  | decreaseLiquidityV2 (whirlpool token_program_a token_program_b
      memo_program position_authority position position_token_account
      token_mint_a token_mint_b token_owner_account_a token_owner_account_b
      token_vault_a token_vault_b tick_array_lower tick_array_upper : Pubkey)
      (liquidity_amount : Nat) (token_min_a token_min_b : Nat)
deriving DecidableEq

/-- Recognises tick-array initialization instructions. -/
def isInitTickArray : Instruction → Bool
  | .initTickArrayIx _ _ _ _ => true
  | _ => false

/-- Recognises a tick-array initialization instruction with a given
start index. -/
def isInitTickArrayAt (s : Int) : Instruction → Bool
  | .initTickArrayIx _ _ _ s' => s' == s
  | _ => false

/-- Recognises system `create_account` instructions. -/
def isCreateAccount : Instruction → Bool
  | .createAccount _ _ _ _ _ => true
  | _ => false

/-- Recognises `close_account` instructions. -/
def isCloseAccount : Instruction → Bool
  | .closeAccount _ _ => true
  | _ => false

/-- Recognises the decrease-liquidity protocol instruction. -/
def isDecreaseLiquidityV2 : Instruction → Bool
  | .decreaseLiquidityV2 _ _ _ _ _ _ _ _ _ _ _ _ _ _ _ _ _ _ => true
  | _ => false

/-! ## Address derivation (`orca_whirlpools_client` pda module)

Modelled from the spec: the pda implementation files are not under `src/`
(only their module declarations are).  Per the spec (§4.1 AddressDeriver)
derivation is a pure deterministic function of a program id and seed
bytes; it is embedded as an injective tagged seed encoding.  The claims
never inspect derived address bytes, only use them as opaque keys. -/

/-- Injective encoding of a signed tick index used inside seeds. -/
def encodeInt (i : Int) : List Nat :=
  if i < 0 then [0, (-i).toNat] else [1, i.toNat]

/-- `get_associated_token_address_with_program_id` (positional arguments,
exactly as each Rust call site passes them). -/
def get_associated_token_address_with_program_id (wallet arg2 arg3 : Pubkey) : Pubkey :=
  100 :: wallet ++ arg2 ++ arg3

/-- `get_position_address` (first component of the pda pair). -/
def get_position_address (position_mint : Pubkey) : Pubkey :=
  101 :: position_mint

/-- `get_whirlpool_address` (first component of the pda pair). -/
def get_whirlpool_address (config token_a token_b : Pubkey) (tick_spacing : Nat) : Pubkey :=
  102 :: config ++ token_a ++ token_b ++ [tick_spacing]

/-- `get_fee_tier_address` (first component of the pda pair). -/
def get_fee_tier_address (config : Pubkey) (tick_spacing : Nat) : Pubkey :=
  103 :: config ++ [tick_spacing]

/-- `get_tick_array_address` (first component of the pda pair). -/
def get_tick_array_address (whirlpool : Pubkey) (start_tick_index : Int) : Pubkey :=
  104 :: whirlpool ++ encodeInt start_tick_index

/-- `get_token_badge_address` (first component of the pda pair). -/
def get_token_badge_address (config mint : Pubkey) : Pubkey :=
  105 :: config ++ mint

/-- The `Pubkey::new(hash(...))` seed-derived address of the `Seed`
wrapping strategy in `token.rs` (hash modelled as injective encoding). -/
def seedDerivedAddress (owner : Pubkey) (timestamp_ms : Nat) (token_program : Pubkey) : Pubkey :=
  106 :: owner ++ [timestamp_ms] ++ token_program

/-- `orca_whirlpools_core::DecreaseLiquidityQuote` value object (external
quote-math collaborator, spec §4.4/§6). -/
structure DecreaseLiquidityQuote where
  liquidity_delta : Nat
  token_est_a : Nat
  token_est_b : Nat
  token_min_a : Nat
  token_min_b : Nat
deriving DecidableEq

/-! ## Environment -/

/-- `NativeMintWrappingStrategy` from `config.rs` (declared in the spec and
used by `token.rs`). -/
inductive NativeMintWrappingStrategy where
  | none
  | ata
  | keypair
  | seed
deriving DecidableEq

/-- Everything external to the engine, passed explicitly: the ledger
read client (`accounts` is `get_account`/`get_multiple_accounts` — one
`Option` per address, order-preserving; `programFeeTierAccounts` is the
`get_program_accounts` result for the fee-tier filters), the process-wide
defaults from `config.rs` (not under `src/`; modelled from the spec as
plain fields, `try_lock` always succeeding in this single-flow model),
keypair generation and the clock, and the external quote-math collaborator
(spec §6) as opaque function fields. -/
structure Env where
  accounts : Pubkey → Option AccountInfo
  minBalanceForRentExemption : Nat → Nat
  epoch : Nat
  programFeeTierAccounts : List (Pubkey × AccountInfo)
  freshKeypair : Nat → Pubkey
  timestampMs : Nat
  funder : Pubkey
  slippageToleranceBps : Nat
  whirlpoolsConfigAddress : Pubkey
  whirlpoolsConfigExtensionAddress : Pubkey
  nativeMintWrappingStrategy : NativeMintWrappingStrategy
  price_to_sqrt_price : Rat → Nat → Nat → Nat
  sqrt_price_to_tick_index : Nat → Int
  sqrt_price_to_price : Nat → Nat → Nat → Rat
  get_full_range_tick_indexes : Nat → Int × Int
  get_tick_array_start_tick_index : Int → Nat → Int
  decrease_liquidity_quote_fn : Nat → Nat → Nat → Int → Int →
    Option TransferFee → Option TransferFee → Except String DecreaseLiquidityQuote
  decrease_liquidity_quote_a_fn : Nat → Nat → Nat → Int → Int →
    Option TransferFee → Option TransferFee → Except String DecreaseLiquidityQuote
  decrease_liquidity_quote_b_fn : Nat → Nat → Nat → Int → Int →
    Option TransferFee → Option TransferFee → Except String DecreaseLiquidityQuote

/-! ## `token.rs`: auxiliary token-account provisioning -/

/-- `TokenAccountStrategy` from `token.rs`. -/
inductive TokenAccountStrategy where
  | withoutBalance (mint : Pubkey)
  | withBalance (mint : Pubkey) (amount : Nat)
deriving DecidableEq

/-- The mint referenced by a strategy entry (the `match` at the top of
`prepare_token_accounts_instructions`). -/
def strategyMint : TokenAccountStrategy → Pubkey
  | .withoutBalance mint => mint
  | .withBalance mint _ => mint

/-- `TokenAccountInstructions` result record from `token.rs`
(the `HashMap` is an association list: later inserts shadow earlier ones). -/
structure TokenAccountInstructions where
  create_instructions : List Instruction
  cleanup_instructions : List Instruction
  token_account_addresses : List (Pubkey × Pubkey)
  additional_signers : List Pubkey
deriving DecidableEq

/-- `get_token_size()`: byte size of an SPL token account (`Account::LEN`). -/
def get_token_size : Nat := 165

/-- The mint-account fetch loop (`rpc.get_account` collected with `?`):
every requested mint account must exist. -/
def fetchAllRequired (env : Env) : List Pubkey → Except String (List AccountInfo)
  | [] => .ok []
  | a :: rest =>
    match env.accounts a with
    | none => .error "mint account not found"
    | some ai =>
      match fetchAllRequired env rest with
      | .error e => .error e
      | .ok r => .ok (ai :: r)

/-- The `Mint::unpack` collection loop over the fetched mint accounts. -/
def unpackMints : List AccountInfo → Except String (List MintData)
  | [] => .ok []
  | ai :: rest =>
    match unpackMint ai.data with
    | .error e => .error e
    | .ok m =>
      match unpackMints rest with
      | .error e => .error e
      | .ok r => .ok (m :: r)

/-- The per-ordinary-mint loop of `prepare_token_accounts_instructions`:
record the associated address for every mint, and emit a create
instruction only when the associated account does not yet exist.  Each
list entry is `(mint_addresses[i], mint_account_infos[i], ata_addresses[i],
ata_account_infos[i])`.  (The source keys the map by the unpacked `Mint`
value, a draft type slip; the evident intent — confirmed by the lookups in
`decrease_liquidity.rs` — is the mint's address.) -/
def ordinaryLoop (owner : Pubkey) :
    List (Pubkey × AccountInfo × Pubkey × Option AccountInfo) →
    List (Pubkey × Pubkey) → List Instruction →
    List (Pubkey × Pubkey) × List Instruction
  | [], addrMap, creates => (addrMap, creates)
  | (mint, ai, ata, atai) :: rest, addrMap, creates =>
    let addrMap1 := (mint, ata) :: addrMap
    match atai with
    | some _ => ordinaryLoop owner rest addrMap1 creates
    | none =>
      ordinaryLoop owner rest addrMap1
        (creates ++ [.createAta owner ata mint ai.owner])

/-- The `Ata`-branch existing-balance read: `Account::unpack(...)?.amount`
when the fetched account exists, 0 otherwise. -/
def ataExistingBalance (account_info : Option AccountInfo) : Except String Nat :=
  match account_info with
  | some ai => (unpackTokenAccount ai.data).map (fun t => t.amount)
  | none => .ok 0

/-- The `Ata`-branch funding step: when the strategy entry at the native
index demands a balance above the existing one, emit a transfer of exactly
the shortfall into `token_account_addresses[&NATIVE_MINT]` (a Rust panic —
modelled as an error — when that key is absent) followed by a sync
instruction. -/
def ataFundingCreates (owner : Pubkey) (spec : List TokenAccountStrategy)
    (idx : Nat) (addrMap : List (Pubkey × Pubkey)) (existing_balance : Nat)
    (creates : List Instruction) : Except String (List Instruction) :=
  match spec.get? idx with
  | some (.withBalance _ required_balance) =>
    if existing_balance < required_balance then
      match List.lookup NATIVE_MINT addrMap with
      | none => .error "panic: no entry found for key NATIVE\x5fMINT"
      | some addr =>
        .ok (creates ++
          [.systemTransfer owner addr (required_balance - existing_balance),
           .syncNative TOKEN_PROGRAM_ID addr])
    else .ok creates
  | _ => .ok creates

/-- `prepare_token_accounts_instructions` from `token.rs`.

Draft constructs of the source are modelled as runtime failures:
indexing `ata_account_infos` out of bounds and indexing the
`token_account_addresses` map at a missing key are Rust panics
(`Except.error`), and the `Ata`-branch cleanup instruction references an
identifier (`native_ata_account`) that the source never defines, modelled
as an error when that line is reached. -/
def prepare_token_accounts_instructions (env : Env) (owner : Pubkey)
    (spec : List TokenAccountStrategy) : Except String TokenAccountInstructions :=
  let mint_addresses_with_native_mint := spec.map strategyMint
  let native_mint_wrapping_strategy := env.nativeMintWrappingStrategy
  let native_mint_index := mint_addresses_with_native_mint.findIdx? (fun x => x == NATIVE_MINT)
  let has_native_mint := native_mint_index.isSome
  let mint_addresses := mint_addresses_with_native_mint.filter (fun x => !(x == NATIVE_MINT))
  match fetchAllRequired env mint_addresses with
  | .error e => .error e
  | .ok mint_account_infos =>
  match unpackMints mint_account_infos with
  | .error e => .error e
  | .ok _mints =>
  let ata_addresses := List.zipWith
    (fun mint ai => get_associated_token_address_with_program_id owner ai.owner mint)
    mint_addresses mint_account_infos
  let ata_account_infos := ata_addresses.map env.accounts
  let looped := ordinaryLoop owner
    (mint_addresses.zip (mint_account_infos.zip (ata_addresses.zip ata_account_infos))) [] []
  let map0 := looped.1
  let creates0 := looped.2
  -- `Keypair` wrapping branch
  let kpRes :=
    if has_native_mint ∧ native_mint_wrapping_strategy = .keypair then
      let keypair := env.freshKeypair 0
      let space := get_token_size
      let rent := env.minBalanceForRentExemption space
      let lamports :=
        match spec.get? (native_mint_index.getD 0) with
        | some (.withBalance _ balance) => rent + balance
        | _ => rent
      (creates0 ++
         [.createAccount owner keypair lamports space TOKEN_PROGRAM_ID,
          .initAccount3 TOKEN_PROGRAM_ID keypair NATIVE_MINT owner],
       ([.closeAccount keypair owner] : List Instruction),
       (NATIVE_MINT, keypair) :: map0,
       ([keypair] : List Pubkey))
    else (creates0, [], map0, [])
  let creates1 := kpRes.1
  let cleanups1 := kpRes.2.1
  let map1 := kpRes.2.2.1
  let signers1 := kpRes.2.2.2
  -- `Seed` wrapping branch
  let sdRes :=
    if has_native_mint ∧ native_mint_wrapping_strategy = .seed then
      let space := get_token_size
      let rent := env.minBalanceForRentExemption space
      let _lamports :=
        match spec.get? (native_mint_index.getD 0) with
        | some (.withBalance _ balance) => rent + balance
        | _ => rent
      let pubkey := seedDerivedAddress owner env.timestampMs TOKEN_PROGRAM_ID
      (creates1 ++
         [.createAccountWithSeed owner pubkey TOKEN_PROGRAM_ID,
          .initAccount3 TOKEN_PROGRAM_ID pubkey NATIVE_MINT owner],
       cleanups1 ++ [.closeAccount pubkey owner],
       (NATIVE_MINT, pubkey) :: map1)
    else (creates1, cleanups1, map1)
  let creates2 := sdRes.1
  let cleanups2 := sdRes.2.1
  let map2 := sdRes.2.2
  -- `Ata` wrapping branch
  let ataRes : Except String (List Instruction × List Instruction) :=
    if has_native_mint ∧ native_mint_wrapping_strategy = .ata then
      match ata_account_infos.get? (native_mint_index.getD 0) with
      | none => .error "panic: index out of bounds"
      | some account_info =>
        match ataExistingBalance account_info with
        | .error e => .error e
        | .ok existing_balance =>
          match ataFundingCreates owner spec (native_mint_index.getD 0) map2
              existing_balance creates2 with
          | .error e => .error e
          | .ok creates3 =>
            if account_info = Option.none then
              .error "unresolved identifier native\x5fata\x5faccount"
            else (.ok (creates3, cleanups2) : Except String (List Instruction × List Instruction))
    else .ok (creates2, cleanups2)
  match ataRes with
  | .error e => .error e
  | .ok finalLists =>
    .ok { create_instructions := finalLists.1,
          cleanup_instructions := finalLists.2,
          token_account_addresses := map2,
          additional_signers := signers1 }

/-- `get_current_transfer_fee` from `token.rs`: resolve a mint's
transfer-fee extension against the current epoch. -/
def get_current_transfer_fee (mint_account_info : AccountInfo)
    (current_epoch : Nat) : Option TransferFee :=
  match mint_account_info.data with
  | .mint m =>
    match m.transfer_fee_config with
    | some cfg =>
      let fee := getEpochFee cfg current_epoch
      some { fee_bps := fee.transfer_fee_basis_points, max_fee := fee.maximum_fee }
    | none => none
  | _ => none

/-! ## `create_pool.rs` -/

/-- `Whirlpool::LEN` (client account layout size; value not claim-relevant). -/
def WHIRLPOOL_LEN : Nat := 653

/-- `Account::LEN` (SPL token account size). -/
def ACCOUNT_LEN : Nat := 165

/-- `TickArray::LEN` (client account layout size; value not claim-relevant). -/
def TICK_ARRAY_LEN : Nat := 9988

/-- `SPLASH_POOL_TICK_SPACING` from `config.rs`.  Modelled from the spec:
`config.rs` is not under `src/`; no claim depends on its numeric value. -/
def SPLASH_POOL_TICK_SPACING : Nat := 32896

/-- `CreatePoolInstructions` result record from `create_pool.rs`. -/
structure CreatePoolInstructions where
  instructions : List Instruction
  est_initialization_cost : Nat
  pool_address : Pubkey
  signers : List Pubkey
deriving DecidableEq

/-- `create_concentrated_liquidity_pool_instructions` from `create_pool.rs`.
The two `assert!`s become errors; `HashSet::from([lower, upper, current])`
iteration is modelled as `List.dedup` (the claims only concern which start
indices occur, not their order). -/
def create_concentrated_liquidity_pool_instructions (env : Env)
    (token_a token_b : Pubkey) (tick_spacing : Nat)
    (initial_price : Option Rat) (funder : Option Pubkey) :
    Except String CreatePoolInstructions :=
  let _initial_price := initial_price.getD 1
  let funder := funder.getD env.funder
  if funder = PUBKEY_DEFAULT then .error "Funder must be provided"
  else if bytesLt token_a token_b = false then
    .error "Token order needs to be flipped to match the canonical ordering"
  else
  match env.accounts token_a with
  | none => .error "Mint A not found"
  | some mint_a_info =>
  match unpackMint mint_a_info.data with
  | .error e => .error e
  | .ok mint_a =>
  match env.accounts token_b with
  | none => .error "Mint B not found"
  | some mint_b_info =>
  match unpackMint mint_b_info.data with
  | .error e => .error e
  | .ok mint_b =>
  let decimals_a := mint_a.decimals
  let token_program_a := mint_a_info.owner
  let decimals_b := mint_b.decimals
  let token_program_b := mint_b_info.owner
  let initial_sqrt_price := env.price_to_sqrt_price _initial_price decimals_a decimals_b
  let pool_address := get_whirlpool_address env.whirlpoolsConfigAddress token_a token_b tick_spacing
  let fee_tier := get_fee_tier_address env.whirlpoolsConfigExtensionAddress tick_spacing
  let token_badge_a := get_token_badge_address env.whirlpoolsConfigExtensionAddress token_a
  let token_badge_b := get_token_badge_address env.whirlpoolsConfigExtensionAddress token_b
  let token_vault_a := env.freshKeypair 0
  let token_vault_b := env.freshKeypair 1
  let poolIx : Instruction :=
    .initPoolV2 env.whirlpoolsConfigAddress token_a token_b token_badge_a
      token_badge_b funder pool_address token_vault_a token_vault_b fee_tier
      token_program_a token_program_b initial_sqrt_price tick_spacing
  let full_range := env.get_full_range_tick_indexes tick_spacing
  let lower_tick_index := env.get_tick_array_start_tick_index full_range.1 tick_spacing
  let upper_tick_index := env.get_tick_array_start_tick_index full_range.2 tick_spacing
  let initial_tick_index := env.sqrt_price_to_tick_index initial_sqrt_price
  let current_tick_index := env.get_tick_array_start_tick_index initial_tick_index tick_spacing
  let tick_array_indexes := ([lower_tick_index, upper_tick_index, current_tick_index] : List Int).dedup
  let tickIxs := tick_array_indexes.map (fun start_tick_index =>
    Instruction.initTickArrayIx pool_address
      (get_tick_array_address pool_address start_tick_index) funder start_tick_index)
  let state_space := WHIRLPOOL_LEN + ACCOUNT_LEN * 2 + tick_array_indexes.length * TICK_ARRAY_LEN
  let est_initialization_cost := env.minBalanceForRentExemption state_space
  .ok { instructions := poolIx :: tickIxs,
        est_initialization_cost,
        pool_address,
        signers := [token_vault_a, token_vault_b] }

/-- `create_splash_pool_instructions` from `create_pool.rs`. -/
def create_splash_pool_instructions (env : Env) (token_a token_b : Pubkey)
    (initial_price : Option Rat) (funder : Option Pubkey) :
    Except String CreatePoolInstructions :=
  create_concentrated_liquidity_pool_instructions env token_a token_b
    SPLASH_POOL_TICK_SPACING initial_price funder

/-! ## `pool.rs`: pool discovery -/

/-- `UninitializedPool` projection from `pool.rs`. -/
structure UninitializedPool where
  whirlpools_config : Pubkey
  tick_spacing : Nat
  fee_rate : Nat
  protocol_fee_rate : Nat
  token_mint_a : Pubkey
  token_mint_b : Pubkey
deriving DecidableEq

/-- `InitializedPool` from `pool.rs` (decoded whirlpool state plus a
human-readable price). -/
structure InitializedPool where
  discriminator : List Nat
  whirlpools_config : Pubkey
  whirlpool_bump : List Nat
  tick_spacing : Nat
  tick_spacing_seed : List Nat
  fee_rate : Nat
  protocol_fee_rate : Nat
  liquidity : Nat
  sqrt_price : Nat
  price : Rat
  tick_current_index : Int
  protocol_fee_owed_a : Nat
  protocol_fee_owed_b : Nat
  token_mint_a : Pubkey
  token_mint_b : Pubkey
  token_vault_a : Pubkey
  token_vault_b : Pubkey
  fee_growth_global_a : Nat
  fee_growth_global_b : Nat
  reward_last_updated_timestamp : Nat
  reward_infos : List WhirlpoolRewardInfo
deriving DecidableEq

/-- `PoolInfo` from `pool.rs`. -/
inductive PoolInfo where
  | Initialized (p : InitializedPool)
  | Uninitialized (p : UninitializedPool)
deriving DecidableEq

/-- `InitializedPool::from_bytes` from `pool.rs`. -/
def initializedPoolFromBytes (env : Env) (bytes : AccountData)
    (mint_a mint_b : MintData) : Except String InitializedPool :=
  match whirlpoolFromBytes bytes with
  | .error e => .error e
  | .ok whirlpool =>
    let price := env.sqrt_price_to_price whirlpool.sqrt_price mint_a.decimals mint_b.decimals
    .ok { discriminator := whirlpool.discriminator,
          whirlpools_config := whirlpool.whirlpools_config,
          whirlpool_bump := whirlpool.whirlpool_bump,
          tick_spacing := whirlpool.tick_spacing,
          tick_spacing_seed := whirlpool.tick_spacing_seed,
          fee_rate := whirlpool.fee_rate,
          protocol_fee_rate := whirlpool.protocol_fee_rate,
          liquidity := whirlpool.liquidity,
          sqrt_price := whirlpool.sqrt_price,
          price,
          tick_current_index := whirlpool.tick_current_index,
          protocol_fee_owed_a := whirlpool.protocol_fee_owed_a,
          protocol_fee_owed_b := whirlpool.protocol_fee_owed_b,
          token_mint_a := whirlpool.token_mint_a,
          token_mint_b := whirlpool.token_mint_b,
          token_vault_a := whirlpool.token_vault_a,
          token_vault_b := whirlpool.token_vault_b,
          fee_growth_global_a := whirlpool.fee_growth_global_a,
          fee_growth_global_b := whirlpool.fee_growth_global_b,
          reward_last_updated_timestamp := whirlpool.reward_last_updated_timestamp,
          reward_infos := whirlpool.reward_infos }

/-- `fetch_concentrated_liquidity_pool` from `pool.rs`.  The batched
`get_multiple_accounts([pool, config, fee_tier, token_a, token_b])` is
order-preserving per-address lookup, written as the individual lookups. -/
def fetch_concentrated_liquidity_pool (env : Env) (token_1 token_2 : Pubkey)
    (tick_spacing : Nat) : Except String PoolInfo :=
  let whirlpools_config_address := env.whirlpoolsConfigAddress
  match order_mints token_1 token_2 with
  | (token_a, token_b) =>
  let whirlpool_pda := get_whirlpool_address whirlpools_config_address token_a token_b tick_spacing
  let fee_tier_address := get_fee_tier_address whirlpools_config_address tick_spacing
  match env.accounts whirlpools_config_address with
  | none => .error "Whirlpools config not found"
  | some whirlpools_config_info =>
  match whirlpoolsConfigFromBytes whirlpools_config_info.data with
  | .error e => .error e
  | .ok whirlpools_config =>
  match env.accounts fee_tier_address with
  | none => .error "Fee tier not found"
  | some fee_tier_info =>
  match feeTierFromBytes fee_tier_info.data with
  | .error e => .error e
  | .ok fee_tier =>
  match env.accounts token_a with
  | none => .error "Mint A not found"
  | some mint_a_info =>
  match unpackMint mint_a_info.data with
  | .error e => .error e
  | .ok mint_a =>
  match env.accounts token_b with
  | none => .error "Mint B not found"
  | some mint_b_info =>
  match unpackMint mint_b_info.data with
  | .error e => .error e
  | .ok mint_b =>
  match env.accounts whirlpool_pda with
  | some whirlpool_info =>
    match initializedPoolFromBytes env whirlpool_info.data mint_a mint_b with
    | .error e => .error e
    | .ok p => .ok (.Initialized p)
  | none =>
    .ok (.Uninitialized
      { whirlpools_config := whirlpools_config_address,
        tick_spacing,
        fee_rate := fee_tier.default_fee_rate,
        protocol_fee_rate := whirlpools_config.default_protocol_fee_rate,
        token_mint_a := token_a,
        token_mint_b := token_b })

/-- `fetch_splash_pool` from `pool.rs`. -/
def fetch_splash_pool (env : Env) (token_1 token_2 : Pubkey) : Except String PoolInfo :=
  fetch_concentrated_liquidity_pool env token_1 token_2 SPLASH_POOL_TICK_SPACING

/-- The `FeeTier::from_bytes` collection over a `get_program_accounts`
result in `fetch_whirlpools_by_token_pair`. -/
def decodeFeeTiers : List (Pubkey × AccountInfo) → Except String (List FeeTierData)
  | [] => .ok []
  | x :: rest =>
    match feeTierFromBytes x.2.data with
    | .error e => .error e
    | .ok ft =>
      match decodeFeeTiers rest with
      | .error e => .error e
      | .ok r => .ok (ft :: r)

/-- The result-assembly loop of `fetch_whirlpools_by_token_pair`
(`for i in 0..whirlpool_infos.len()`, reading `fee_tiers[i]`; running past
the fee-tier list would be a Rust index panic). -/
def buildPools (env : Env) (whirlpools_config_address : Pubkey)
    (whirlpools_config : WhirlpoolsConfigData) (token_a token_b : Pubkey)
    (mint_a mint_b : MintData) :
    List (Option AccountInfo) → List FeeTierData → Except String (List PoolInfo)
  | [], _ => .ok []
  | _ :: _, [] => .error "panic: index out of bounds"
  | some pool_info :: rest, _ :: fts =>
    match initializedPoolFromBytes env pool_info.data mint_a mint_b with
    | .error e => .error e
    | .ok p =>
      match buildPools env whirlpools_config_address whirlpools_config
        token_a token_b mint_a mint_b rest fts with
      | .error e => .error e
      | .ok l => .ok (.Initialized p :: l)
  | none :: rest, ft :: fts =>
    match buildPools env whirlpools_config_address whirlpools_config
      token_a token_b mint_a mint_b rest fts with
    | .error e => .error e
    | .ok l =>
      .ok (.Uninitialized
        { whirlpools_config := whirlpools_config_address,
          tick_spacing := ft.tick_spacing,
          fee_rate := ft.default_fee_rate,
          protocol_fee_rate := whirlpools_config.default_protocol_fee_rate,
          token_mint_a := token_a,
          token_mint_b := token_b } :: l)

/-- `fetch_whirlpools_by_token_pair` from `pool.rs`. -/
def fetch_whirlpools_by_token_pair (env : Env) (token_1 token_2 : Pubkey) :
    Except String (List PoolInfo) :=
  let whirlpools_config_address := env.whirlpoolsConfigAddress
  match order_mints token_1 token_2 with
  | (token_a, token_b) =>
  match decodeFeeTiers env.programFeeTierAccounts with
  | .error e => .error e
  | .ok fee_tiers =>
  match env.accounts whirlpools_config_address with
  | none => .error "Whirlpools config not found"
  | some whirlpools_config_info =>
  match whirlpoolsConfigFromBytes whirlpools_config_info.data with
  | .error e => .error e
  | .ok whirlpools_config =>
  match env.accounts token_a with
  | none => .error "Mint A not found"
  | some mint_a_info =>
  match unpackMint mint_a_info.data with
  | .error e => .error e
  | .ok mint_a =>
  match env.accounts token_b with
  | none => .error "Mint B not found"
  | some mint_b_info =>
  match unpackMint mint_b_info.data with
  | .error e => .error e
  | .ok mint_b =>
  let whirlpool_addresses := fee_tiers.map (fun ft =>
    get_whirlpool_address whirlpools_config_address token_a token_b ft.tick_spacing)
  let whirlpool_infos := whirlpool_addresses.map env.accounts
  buildPools env whirlpools_config_address whirlpools_config token_a token_b
    mint_a mint_b whirlpool_infos fee_tiers

/-! ## `decrease_liquidity.rs` -/

/-- The SPL memo program id (imported constant, opaque). -/
def SPL_MEMO_ID : Pubkey := [201]

/-- `DecreaseLiquidityParam` from `decrease_liquidity.rs`. -/
inductive DecreaseLiquidityParam where
  | tokenA (amount : Nat)
  | tokenB (amount : Nat)
  | liquidity (amount : Nat)
deriving DecidableEq

/-- `DecreaseLiquidityInstruction` result record. -/
structure DecreaseLiquidityInstruction where
  quote : DecreaseLiquidityQuote
  instructions : List Instruction
  additional_signers : List Pubkey
deriving DecidableEq

/-- `orca_whirlpools_core::CollectFeesQuote` (external collaborator). -/
structure CollectFeesQuote where
  fee_owed_a : Nat
  fee_owed_b : Nat
deriving DecidableEq

/-- `orca_whirlpools_core::CollectRewardsQuote` (external collaborator). -/
structure CollectRewardsQuote where
  rewards_owed : List Nat
deriving DecidableEq

/-- `ClosePositionInstruction` result record. -/
structure ClosePositionInstruction where
  instructions : List Instruction
  additional_signers : List Pubkey
  quote : DecreaseLiquidityQuote
  fees_quote : CollectFeesQuote
  rewards_quote : CollectRewardsQuote
deriving DecidableEq

/-- The quote dispatch of `decrease_liquidity_instructions`: selects the
external quote function by the caller's parameterization. -/
def decreaseQuoteFor (env : Env) (param : DecreaseLiquidityParam)
    (slippage_tolerance_bps : Nat) (sqrt_price : Nat)
    (tick_lower_index tick_upper_index : Int)
    (transfer_fee_a transfer_fee_b : Option TransferFee) :
    Except String DecreaseLiquidityQuote :=
  match param with
  | .tokenA amount => env.decrease_liquidity_quote_a_fn amount
      slippage_tolerance_bps sqrt_price tick_lower_index tick_upper_index
      transfer_fee_a transfer_fee_b
  | .tokenB amount => env.decrease_liquidity_quote_b_fn amount
      slippage_tolerance_bps sqrt_price tick_lower_index tick_upper_index
      transfer_fee_a transfer_fee_b
  | .liquidity amount => env.decrease_liquidity_quote_fn amount
      slippage_tolerance_bps sqrt_price tick_lower_index tick_upper_index
      transfer_fee_a transfer_fee_b

/-- `decrease_liquidity_instructions` from `decrease_liquidity.rs`.
Note the authority guard is transcribed exactly as written in the source:
`if authority != Pubkey::default() { return Err("Authority must be
provided") }`. -/
def decrease_liquidity_instructions (env : Env) (position_mint_address : Pubkey)
    (param : DecreaseLiquidityParam) (slippage_tolerance_bps : Option Nat)
    (authority : Option Pubkey) : Except String DecreaseLiquidityInstruction :=
  let slippage_tolerance_bps := slippage_tolerance_bps.getD env.slippageToleranceBps
  let authority := authority.getD env.funder
  if authority ≠ PUBKEY_DEFAULT then .error "Authority must be provided"
  else
  let position_address := get_position_address position_mint_address
  match env.accounts position_address with
  | none => .error "Position account not found"
  | some position_info =>
  match positionFromBytes position_info.data with
  | .error e => .error e
  | .ok position =>
  match env.accounts position.whirlpool with
  | none => .error "Whirlpool account not found"
  | some pool_info =>
  match whirlpoolFromBytes pool_info.data with
  | .error e => .error e
  | .ok pool =>
  match env.accounts pool.token_mint_a with
  | none => .error "Token A mint info not found"
  | some mint_a_info =>
  match env.accounts pool.token_mint_b with
  | none => .error "Token B mint info not found"
  | some mint_b_info =>
  match env.accounts position_mint_address with
  | none => .error "Position mint info not found"
  | some position_mint_info =>
  let current_epoch := env.epoch
  let transfer_fee_a := get_current_transfer_fee mint_a_info current_epoch
  let transfer_fee_b := get_current_transfer_fee mint_b_info current_epoch
  match decreaseQuoteFor env param slippage_tolerance_bps pool.sqrt_price
      position.tick_lower_index position.tick_upper_index
      transfer_fee_a transfer_fee_b with
  | .error e => .error e
  | .ok quote =>
  let lower_tick_array_start_index :=
    env.get_tick_array_start_tick_index position.tick_lower_index pool.tick_spacing
  let upper_tick_array_start_index :=
    env.get_tick_array_start_tick_index position.tick_upper_index pool.tick_spacing
  let position_token_account_address :=
    get_associated_token_address_with_program_id authority position_mint_address
      position_mint_info.owner
  let lower_tick_array_address :=
    get_tick_array_address position.whirlpool lower_tick_array_start_index
  let upper_tick_array_address :=
    get_tick_array_address position.whirlpool upper_tick_array_start_index
  match prepare_token_accounts_instructions env authority
      [.withoutBalance pool.token_mint_a, .withoutBalance pool.token_mint_b] with
  | .error e => .error e
  | .ok token_accounts =>
  match List.lookup pool.token_mint_a token_accounts.token_account_addresses with
  | none => .error "panic: called unwrap on a None value"
  | some token_owner_account_a =>
  match List.lookup pool.token_mint_b token_accounts.token_account_addresses with
  | none => .error "panic: called unwrap on a None value"
  | some token_owner_account_b =>
  let decIx : Instruction :=
    .decreaseLiquidityV2 position.whirlpool mint_a_info.owner mint_b_info.owner
      SPL_MEMO_ID authority position_address position_token_account_address
      pool.token_mint_a pool.token_mint_b token_owner_account_a
      token_owner_account_b pool.token_vault_a pool.token_vault_b
      lower_tick_array_address upper_tick_array_address
      quote.liquidity_delta quote.token_min_a quote.token_min_b
  let instructions :=
    token_accounts.create_instructions ++ [decIx] ++ token_accounts.cleanup_instructions
  .ok { quote, instructions, additional_signers := token_accounts.additional_signers }

/-- `close_position_instructions` from `decrease_liquidity.rs`: the source
function body is empty after the (inverted) authority guard; the missing
remainder is an error state. -/
def close_position_instructions (env : Env) (position_mint_address : Pubkey)
    (slippage_tolerance_bps : Option Nat) (authority : Option Pubkey) :
    Except String ClosePositionInstruction :=
  let _slippage_tolerance_bps := slippage_tolerance_bps.getD env.slippageToleranceBps
  let _position_mint_address := position_mint_address
  let authority := authority.getD env.funder
  if authority ≠ PUBKEY_DEFAULT then .error "Authority must be provided"
  else .error "unfinished: function body is empty"

/-! ## Inversion of `create_concentrated_liquidity_pool_instructions` -/

/-- The success-branch result of
`create_concentrated_liquidity_pool_instructions` as a function of the two
fetched/decoded mint accounts (used to state inversion lemmas). -/
def createPoolSuccess (env : Env) (token_a token_b : Pubkey) (tick_spacing : Nat)
    (initial_price : Option Rat) (funder : Option Pubkey)
    (mint_a_info mint_b_info : AccountInfo) (mint_a mint_b : MintData) :
    CreatePoolInstructions :=
  let funder := funder.getD env.funder
  let initial_sqrt_price :=
    env.price_to_sqrt_price (initial_price.getD 1) mint_a.decimals mint_b.decimals
  let pool_address :=
    get_whirlpool_address env.whirlpoolsConfigAddress token_a token_b tick_spacing
  let poolIx : Instruction :=
    .initPoolV2 env.whirlpoolsConfigAddress token_a token_b
      (get_token_badge_address env.whirlpoolsConfigExtensionAddress token_a)
      (get_token_badge_address env.whirlpoolsConfigExtensionAddress token_b)
      funder pool_address (env.freshKeypair 0) (env.freshKeypair 1)
      (get_fee_tier_address env.whirlpoolsConfigExtensionAddress tick_spacing)
      mint_a_info.owner mint_b_info.owner initial_sqrt_price tick_spacing
  let full_range := env.get_full_range_tick_indexes tick_spacing
  let tick_array_indexes :=
    ([env.get_tick_array_start_tick_index full_range.1 tick_spacing,
      env.get_tick_array_start_tick_index full_range.2 tick_spacing,
      env.get_tick_array_start_tick_index
        (env.sqrt_price_to_tick_index initial_sqrt_price) tick_spacing] : List Int).dedup
  { instructions := poolIx :: tick_array_indexes.map (fun start_tick_index =>
      Instruction.initTickArrayIx pool_address
        (get_tick_array_address pool_address start_tick_index) funder start_tick_index),
    est_initialization_cost := env.minBalanceForRentExemption
      (WHIRLPOOL_LEN + ACCOUNT_LEN * 2 + tick_array_indexes.length * TICK_ARRAY_LEN),
    pool_address,
    signers := [env.freshKeypair 0, env.freshKeypair 1] }

theorem create_pool_ok_inv (env : Env) (token_a token_b : Pubkey)
    (tick_spacing : Nat) (initial_price : Option Rat) (funder : Option Pubkey)
    (r : CreatePoolInstructions)
    (h : create_concentrated_liquidity_pool_instructions env token_a token_b
      tick_spacing initial_price funder = .ok r) :
    funder.getD env.funder ≠ PUBKEY_DEFAULT ∧
    bytesLt token_a token_b = true ∧
    ∃ mint_a_info mint_a mint_b_info mint_b,
      env.accounts token_a = some mint_a_info ∧
      unpackMint mint_a_info.data = .ok mint_a ∧
      env.accounts token_b = some mint_b_info ∧
      unpackMint mint_b_info.data = .ok mint_b ∧
      r = createPoolSuccess env token_a token_b tick_spacing initial_price funder
            mint_a_info mint_b_info mint_a mint_b := by
  simp only [create_concentrated_liquidity_pool_instructions] at h
  split at h
  · exact Except.noConfusion h
  next hfun =>
    split at h
    · exact Except.noConfusion h
    next hord =>
      split at h
      · exact Except.noConfusion h
      next mint_a_info hacc_a =>
        split at h
        · exact Except.noConfusion h
        next mint_a hunp_a =>
          split at h
          · exact Except.noConfusion h
          next mint_b_info hacc_b =>
            split at h
            · exact Except.noConfusion h
            next mint_b hunp_b =>
              cases h
              refine ⟨hfun, ?_, mint_a_info, mint_a, mint_b_info, mint_b,
                hacc_a, hunp_a, hacc_b, hunp_b, rfl⟩
              cases hb : bytesLt token_a token_b with
              | false => exact absurd hb hord
              | true => rfl

/-! ## Counting tick-array instructions -/

theorem countP_tickIxs (pool fd : Pubkey) (L : List Int) :
    List.countP isInitTickArray (L.map (fun s =>
      Instruction.initTickArrayIx pool (get_tick_array_address pool s) fd s))
      = L.length := by
  induction L with
  | nil => rfl
  | cons x xs ih => simp [List.countP_cons, isInitTickArray, ih]

theorem countP_tickIxs_at (pool fd : Pubkey) (s : Int) (L : List Int) :
    List.countP (isInitTickArrayAt s) (L.map (fun t =>
      Instruction.initTickArrayIx pool (get_tick_array_address pool t) fd t))
      = L.count s := by
  induction L with
  | nil => rfl
  | cons x xs ih =>
    simp only [List.map_cons, List.countP_cons, List.count_cons, ih, isInitTickArrayAt]

/-- Demo environments for concrete evaluations. -/
def envBase : Env where
  accounts := fun _ => none
  minBalanceForRentExemption := fun _ => 0
  epoch := 0
  programFeeTierAccounts := []
  freshKeypair := fun _ => [9]
  timestampMs := 0
  funder := PUBKEY_DEFAULT
  slippageToleranceBps := 100
  whirlpoolsConfigAddress := [30]
  whirlpoolsConfigExtensionAddress := [31]
  nativeMintWrappingStrategy := .none
  price_to_sqrt_price := fun _ _ _ => 0
  sqrt_price_to_tick_index := fun _ => 0
  sqrt_price_to_price := fun _ _ _ => 0
  get_full_range_tick_indexes := fun _ => (0, 0)
  get_tick_array_start_tick_index := fun _ _ => 0
  decrease_liquidity_quote_fn := fun _ _ _ _ _ _ _ => .error "quote unavailable"
  decrease_liquidity_quote_a_fn := fun _ _ _ _ _ _ _ => .error "quote unavailable"
  decrease_liquidity_quote_b_fn := fun _ _ _ _ _ _ _ => .error "quote unavailable"

/-- A plain mint account (no transfer-fee extension). -/
def mintAcc : AccountInfo where
  owner := TOKEN_PROGRAM_ID
  data := .mint { decimals := 6, transfer_fee_config := none }

/-- Environment where mints `[1]` and `[2]` exist and the default funder is
set, so pool creation succeeds. -/
def envCreate : Env :=
  { envBase with
    accounts := fun a => if a = [1] ∨ a = [2] then some mintAcc else none,
    funder := [7] }

/-- The concrete result of creating a pool for mints `[1] < [2]` in
`envCreate` (all three tick-array start indexes coincide at 0). -/
def createResultDemo : CreatePoolInstructions :=
  createPoolSuccess envCreate [1] [2] 64 none none mintAcc mintAcc
    { decimals := 6, transfer_fee_config := none }
    { decimals := 6, transfer_fee_config := none }

theorem createResultDemo_eq :
    create_concentrated_liquidity_pool_instructions envCreate [1] [2] 64
      none none = .ok createResultDemo := by
  rfl

theorem tick_batch_counts (hd : Instruction) (pool fd : Pubkey) (a b c : Int)
    (h1 : isInitTickArray hd = false)
    (h2 : ∀ s, isInitTickArrayAt s hd = false) :
    List.countP isInitTickArray (hd :: (([a, b, c] : List Int).dedup).map (fun s =>
        Instruction.initTickArrayIx pool (get_tick_array_address pool s) fd s))
      = ([a, b, c] : List Int).dedup.length ∧
    1 ≤ ([a, b, c] : List Int).dedup.length ∧
    ([a, b, c] : List Int).dedup.length ≤ 3 ∧
    (a = b → b = c → ([a, b, c] : List Int).dedup.length = 1) ∧
    ∀ s, s ∈ ([a, b, c] : List Int) →
      List.countP (isInitTickArrayAt s) (hd :: (([a, b, c] : List Int).dedup).map (fun t =>
        Instruction.initTickArrayIx pool (get_tick_array_address pool t) fd t)) = 1 := by
  refine ⟨?_, ?_, ?_, ?_, ?_⟩
  · rw [List.countP_cons, countP_tickIxs, h1]
    simp
  · have hm : a ∈ ([a, b, c] : List Int).dedup := List.mem_dedup.mpr (by simp)
    have := List.length_pos.mpr (List.ne_nil_of_mem hm)
    omega
  · have := (List.dedup_sublist ([a, b, c] : List Int)).length_le
    simpa using this
  · intro hab hbc
    subst hab
    subst hbc
    rw [List.dedup_cons_of_mem (by simp), List.dedup_cons_of_mem (by simp)]
    rfl
  · intro s hs
    simp only [List.countP_cons, h2 s, countP_tickIxs_at, List.count_dedup]
    rw [if_pos hs]
    simp

/-- C2: every successful `create_concentrated_liquidity_pool_instructions`
batch contains exactly one tick-array-initialization instruction per unique
start index among the full-range lower, full-range upper, and current-price
tick arrays; their total count is between 1 and 3, and when the three start
indexes coincide exactly one such instruction is emitted. -/
theorem C2_create_pool_tick_array_dedup (env : Env) (token_a token_b : Pubkey)
    (tick_spacing : Nat) (initial_price : Option Rat) (funder : Option Pubkey)
    (r : CreatePoolInstructions)
    (h : create_concentrated_liquidity_pool_instructions env token_a token_b
      tick_spacing initial_price funder = .ok r) :
    ∃ mint_a_info mint_a mint_b_info mint_b lower upper current,
      env.accounts token_a = some mint_a_info ∧
      unpackMint mint_a_info.data = .ok mint_a ∧
      env.accounts token_b = some mint_b_info ∧
      unpackMint mint_b_info.data = .ok mint_b ∧
      lower = env.get_tick_array_start_tick_index
        (env.get_full_range_tick_indexes tick_spacing).1 tick_spacing ∧
      upper = env.get_tick_array_start_tick_index
        (env.get_full_range_tick_indexes tick_spacing).2 tick_spacing ∧
      current = env.get_tick_array_start_tick_index
        (env.sqrt_price_to_tick_index (env.price_to_sqrt_price
          (initial_price.getD 1) mint_a.decimals mint_b.decimals)) tick_spacing ∧
      List.countP isInitTickArray r.instructions
        = ([lower, upper, current] : List Int).dedup.length ∧
      1 ≤ List.countP isInitTickArray r.instructions ∧
      List.countP isInitTickArray r.instructions ≤ 3 ∧
      (lower = upper → upper = current →
        List.countP isInitTickArray r.instructions = 1) ∧
      ∀ s, s ∈ ([lower, upper, current] : List Int) →
        List.countP (isInitTickArrayAt s) r.instructions = 1 := by
  obtain ⟨-, -, mint_a_info, mint_a, mint_b_info, mint_b, ha, hua, hb, hub, hr⟩ :=
    create_pool_ok_inv env token_a token_b tick_spacing initial_price funder r h
  subst hr
  have H := tick_batch_counts
    (Instruction.initPoolV2 env.whirlpoolsConfigAddress token_a token_b
      (get_token_badge_address env.whirlpoolsConfigExtensionAddress token_a)
      (get_token_badge_address env.whirlpoolsConfigExtensionAddress token_b)
      (funder.getD env.funder)
      (get_whirlpool_address env.whirlpoolsConfigAddress token_a token_b tick_spacing)
      (env.freshKeypair 0) (env.freshKeypair 1)
      (get_fee_tier_address env.whirlpoolsConfigExtensionAddress tick_spacing)
      mint_a_info.owner mint_b_info.owner
      (env.price_to_sqrt_price (initial_price.getD 1) mint_a.decimals mint_b.decimals)
      tick_spacing)
    (get_whirlpool_address env.whirlpoolsConfigAddress token_a token_b tick_spacing)
    (funder.getD env.funder)
    (env.get_tick_array_start_tick_index
      (env.get_full_range_tick_indexes tick_spacing).1 tick_spacing)
    (env.get_tick_array_start_tick_index
      (env.get_full_range_tick_indexes tick_spacing).2 tick_spacing)
    (env.get_tick_array_start_tick_index
      (env.sqrt_price_to_tick_index (env.price_to_sqrt_price
        (initial_price.getD 1) mint_a.decimals mint_b.decimals)) tick_spacing)
    rfl (fun _ => rfl)
  obtain ⟨hc1, hc2, hc3, hc4, hc5⟩ := H
  refine ⟨mint_a_info, mint_a, mint_b_info, mint_b, _, _, _, ha, hua, hb, hub,
    rfl, rfl, rfl, hc1, ?_, ?_, ?_, hc5⟩
  · exact hc1.symm ▸ hc2
  · exact hc1.symm ▸ hc3
  · intro e1 e2
    exact hc1.trans (hc4 e1 e2)

theorem C2_create_pool_tick_array_dedup_witness :
    List.countP isInitTickArray createResultDemo.instructions = 1 ∧
    1 ≤ List.countP isInitTickArray createResultDemo.instructions ∧
    List.countP isInitTickArray createResultDemo.instructions ≤ 3 := by
  obtain ⟨_, _, _, _, lower, upper, current, -, -, -, -, hl, hu, hc,
    h1, h2, h3, h4, h5⟩ :=
    C2_create_pool_tick_array_dedup envCreate [1] [2] 64 none none
      createResultDemo createResultDemo_eq
  subst hl
  subst hu
  subst hc
  exact ⟨h4 rfl rfl, h2, h3⟩

/-- An arbitrary result record used to state that creation cannot succeed. -/
def emptyCreateResult : CreatePoolInstructions where
  instructions := []
  est_initialization_cost := 0
  pool_address := []
  signers := []

/-- C6: when the two mints are not in canonical byte-wise order, pool
creation fails (never auto-corrects), and every successful call implies
canonical ordering, with the pool address and pool-initialization
instruction built from the mints exactly as given. -/
theorem C6_canonical_mint_order_enforced (env : Env) (token_a token_b : Pubkey)
    (tick_spacing : Nat) (initial_price : Option Rat) (funder : Option Pubkey) :
    (bytesLt token_a token_b = false →
      ∀ r, create_concentrated_liquidity_pool_instructions env token_a token_b
        tick_spacing initial_price funder ≠ .ok r) ∧
    (∀ r, create_concentrated_liquidity_pool_instructions env token_a token_b
        tick_spacing initial_price funder = .ok r →
      bytesLt token_a token_b = true ∧
      r.pool_address = get_whirlpool_address env.whirlpoolsConfigAddress token_a
        token_b tick_spacing ∧
      ∃ token_program_a token_program_b initial_sqrt_price rest,
        r.instructions = Instruction.initPoolV2 env.whirlpoolsConfigAddress
          token_a token_b
          (get_token_badge_address env.whirlpoolsConfigExtensionAddress token_a)
          (get_token_badge_address env.whirlpoolsConfigExtensionAddress token_b)
          (funder.getD env.funder) r.pool_address (env.freshKeypair 0)
          (env.freshKeypair 1)
          (get_fee_tier_address env.whirlpoolsConfigExtensionAddress tick_spacing)
          token_program_a token_program_b initial_sqrt_price tick_spacing
          :: rest) := by
  constructor
  · intro hlt r hok
    obtain ⟨-, htrue, -⟩ :=
      create_pool_ok_inv env token_a token_b tick_spacing initial_price funder r hok
    rw [hlt] at htrue
    exact Bool.noConfusion htrue
  · intro r hok
    obtain ⟨-, htrue, mint_a_info, mint_a, mint_b_info, mint_b, -, -, -, -, hr⟩ :=
      create_pool_ok_inv env token_a token_b tick_spacing initial_price funder r hok
    subst hr
    exact ⟨htrue, rfl, mint_a_info.owner, mint_b_info.owner, _, _, rfl⟩

theorem C6_canonical_mint_order_enforced_witness :
    (create_concentrated_liquidity_pool_instructions envBase [2] [1] 64 none
      (some [7]) ≠ .ok emptyCreateResult) ∧
    bytesLt ([1] : Pubkey) [2] = true ∧
    createResultDemo.pool_address
      = get_whirlpool_address envCreate.whirlpoolsConfigAddress [1] [2] 64 := by
  refine ⟨?_, ?_, ?_⟩
  · exact (C6_canonical_mint_order_enforced envBase [2] [1] 64 none (some [7])).1
      (by decide) _
  · exact ((C6_canonical_mint_order_enforced envCreate [1] [2] 64 none none).2
      createResultDemo createResultDemo_eq).1
  · exact ((C6_canonical_mint_order_enforced envCreate [1] [2] 64 none none).2
      createResultDemo createResultDemo_eq).2.1

/-- C9: `order_mints` is symmetric in its arguments and always returns the
byte-wise smaller mint first (strictly smaller when the mints differ). -/
theorem C9_order_mints_canonical (a b : Pubkey) :
    order_mints a b = order_mints b a ∧
    bytesLt (order_mints a b).2 (order_mints a b).1 = false ∧
    (order_mints a b = (a, b) ∨ order_mints a b = (b, a)) ∧
    (a ≠ b → bytesLt (order_mints a b).1 (order_mints a b).2 = true) :=
  ⟨order_mints_comm a b, order_mints_fst_le a b, order_mints_mem a b,
    fun h => order_mints_fst_lt a b h⟩

theorem C9_order_mints_canonical_witness :
    order_mints [1] [2] = order_mints [2] [1] ∧
    bytesLt (order_mints [1] [2]).2 (order_mints [1] [2]).1 = false ∧
    (order_mints [1] [2] = (([1] : Pubkey), [2]) ∨
      order_mints [1] [2] = (([2] : Pubkey), [1])) ∧
    bytesLt (order_mints [1] [2]).1 (order_mints [1] [2]).2 = true := by
  obtain ⟨h1, h2, h3, h4⟩ := C9_order_mints_canonical [1] [2]
  exact ⟨h1, h2, h3, h4 (by decide)⟩

/-- C10: the splash-pool entry points delegate exactly to the
concentrated-liquidity ones at `SPLASH_POOL_TICK_SPACING`. -/
theorem C10_splash_pool_delegation (env : Env) (token_a token_b : Pubkey)
    (initial_price : Option Rat) (funder : Option Pubkey)
    (token_1 token_2 : Pubkey) :
    create_splash_pool_instructions env token_a token_b initial_price funder =
      create_concentrated_liquidity_pool_instructions env token_a token_b
        SPLASH_POOL_TICK_SPACING initial_price funder ∧
    fetch_splash_pool env token_1 token_2 =
      fetch_concentrated_liquidity_pool env token_1 token_2
        SPLASH_POOL_TICK_SPACING :=
  ⟨rfl, rfl⟩

/-- C1 (divergence evidence): `create_concentrated_liquidity_pool_instructions`
rejects the zero-address funder before any read, as the claim states — but
`decrease_liquidity_instructions` and `close_position_instructions` invert
the guard: they return the `"Authority must be provided"` precondition error
exactly when the resolved authority is a non-zero address, and proceed past
the guard when it is the zero address. -/
theorem C1_zero_address_guard_divergence :
    create_concentrated_liquidity_pool_instructions envBase [1] [2] 64 none none
      = .error "Funder must be provided" ∧
    decrease_liquidity_instructions envBase [2] (.liquidity 5) none (some [7])
      = .error "Authority must be provided" ∧
    close_position_instructions envBase [2] none (some [7])
      = .error "Authority must be provided" ∧
    decrease_liquidity_instructions envBase [2] (.liquidity 5) none none
      = .error "Position account not found" ∧
    close_position_instructions envBase [2] none none
      = .error "unfinished: function body is empty" ∧
    "Position account not found" ≠ "Authority must be provided" ∧
    "unfinished: function body is empty" ≠ "Authority must be provided" := by
  refine ⟨rfl, rfl, rfl, rfl, rfl, ?_, ?_⟩
  · decide
  · decide

/-! ## Structure of the provisioning loop -/

/-- Recognises `create_associated_token_account` instructions. -/
def isCreateAtaIx : Instruction → Bool
  | .createAta _ _ _ _ => true
  | _ => false

/-- The create instructions emitted by the ordinary-mint loop, without the
accumulator. -/
def loopCreates (owner : Pubkey) :
    List (Pubkey × AccountInfo × Pubkey × Option AccountInfo) → List Instruction
  | [] => []
  | (_, _, _, some _) :: rest => loopCreates owner rest
  | (mint, ai, ata, none) :: rest =>
    .createAta owner ata mint ai.owner :: loopCreates owner rest

theorem ordinaryLoop_creates (owner : Pubkey) :
    ∀ (l : List (Pubkey × AccountInfo × Pubkey × Option AccountInfo))
      (m : List (Pubkey × Pubkey)) (acc : List Instruction),
      (ordinaryLoop owner l m acc).2 = acc ++ loopCreates owner l := by
  intro l
  induction l with
  | nil => intro m acc; simp [ordinaryLoop, loopCreates]
  | cons q rest ih =>
    intro m acc
    obtain ⟨mint, ai, ata, atai⟩ := q
    cases atai with
    | some v => simp [ordinaryLoop, loopCreates, ih]
    | none => simp [ordinaryLoop, loopCreates, ih]

theorem loopCreates_shape (owner : Pubkey) :
    ∀ (l : List (Pubkey × AccountInfo × Pubkey × Option AccountInfo)),
      ∀ ix ∈ loopCreates owner l, ∃ f a m tp, ix = Instruction.createAta f a m tp := by
  intro l
  induction l with
  | nil => intro ix hix; simp [loopCreates] at hix
  | cons q rest ih =>
    obtain ⟨mint, ai, ata, atai⟩ := q
    intro ix hix
    cases atai with
    | some v => exact ih ix hix
    | none =>
      rcases List.mem_cons.mp hix with h | h
      · exact ⟨owner, ata, mint, ai.owner, h⟩
      · exact ih ix h

/-- The balance the code attaches to the native wrapping account: the
`WithBalance` amount of the entry at the native mint's position in the
strategy list (`spec[native_mint_index.unwrap_or(0)]`), 0 otherwise. -/
def nativeRequestedBalance (spec : List TokenAccountStrategy) : Nat :=
  match spec.get? (((spec.map strategyMint).findIdx?
      (fun x => x == NATIVE_MINT)).getD 0) with
  | some (.withBalance _ balance) => balance
  | _ => 0

theorem lamports_match_eq (rent : Nat) (spec : List TokenAccountStrategy) (idx : Nat) :
    (match spec.get? idx with
     | some (.withBalance _ balance) => rent + balance
     | _ => rent)
    = rent + (match spec.get? idx with
     | some (.withBalance _ balance) => balance
     | _ => 0) := by
  rcases hg : spec.get? idx with _ | s
  · rfl
  · rcases s with m | ⟨m, b⟩ <;> rfl

theorem loopCreates_countP_eq_zero (p : Instruction → Bool)
    (hp : ∀ f a m tp, p (.createAta f a m tp) = false) (owner : Pubkey)
    (l : List (Pubkey × AccountInfo × Pubkey × Option AccountInfo)) :
    List.countP p (loopCreates owner l) = 0 := by
  refine List.countP_eq_zero.mpr ?_
  intro ix hix
  obtain ⟨f, a, m, tp, rfl⟩ := loopCreates_shape owner l ix hix
  simp [hp]

/-- C3: with the `Keypair` native-wrapping strategy and the native mint in
the strategy list, every successful call creates exactly one new account
(the ephemeral keypair account, funded with minimum rent exemption plus the
requested balance), schedules exactly one close instruction for it, records
it as the native mint's token account, and returns the keypair as the sole
additional signer — regardless of any pre-existing accounts on chain. -/
theorem C3_keypair_wrapping_strategy (env : Env) (owner : Pubkey)
    (spec : List TokenAccountStrategy) (ta : TokenAccountInstructions)
    (hstrat : env.nativeMintWrappingStrategy = .keypair)
    (hmem : NATIVE_MINT ∈ spec.map strategyMint)
    (h : prepare_token_accounts_instructions env owner spec = .ok ta) :
    List.countP isCreateAccount ta.create_instructions = 1 ∧
    ta.cleanup_instructions = [.closeAccount (env.freshKeypair 0) owner] ∧
    List.countP isCloseAccount ta.cleanup_instructions = 1 ∧
    ta.additional_signers = [env.freshKeypair 0] ∧
    Instruction.createAccount owner (env.freshKeypair 0)
      (env.minBalanceForRentExemption get_token_size + nativeRequestedBalance spec)
      get_token_size TOKEN_PROGRAM_ID ∈ ta.create_instructions ∧
    (NATIVE_MINT, env.freshKeypair 0) ∈ ta.token_account_addresses := by
  have hnat : ((spec.map strategyMint).findIdx? (fun x => x == NATIVE_MINT)).isSome
      = true := by
    rw [List.findIdx?_isSome, List.any_eq_true]
    exact ⟨NATIVE_MINT, hmem, by simp⟩
  simp only [prepare_token_accounts_instructions, hstrat, hnat] at h
  split at h
  · exact Except.noConfusion h
  rename_i mint_account_infos hfetch
  split at h
  · exact Except.noConfusion h
  rename_i mints hmints
  rw [if_pos (show True ∧ True from ⟨trivial, trivial⟩),
      if_neg (show ¬(True ∧ NativeMintWrappingStrategy.keypair
        = NativeMintWrappingStrategy.seed) by decide),
      if_neg (show ¬(True ∧ NativeMintWrappingStrategy.keypair
        = NativeMintWrappingStrategy.ata) by decide)] at h
  simp only [ordinaryLoop_creates, List.nil_append] at h
  rw [lamports_match_eq] at h
  cases h
  refine ⟨?_, rfl, rfl, rfl, ?_, ?_⟩
  · rw [List.countP_append,
      loopCreates_countP_eq_zero isCreateAccount (fun _ _ _ _ => rfl) owner _]
    rfl
  · exact List.mem_append_right _ (List.mem_cons_self _ _)
  · exact List.mem_cons_self _ _

/-- Environment with the `Keypair` wrapping strategy selected. -/
def envKp : Env :=
  { envBase with
    nativeMintWrappingStrategy := .keypair,
    minBalanceForRentExemption := fun _ => 2000 }

/-- Concrete provisioning result for a lone native-mint `WithBalance`
strategy entry under `envKp`. -/
def kpResultDemo : TokenAccountInstructions where
  create_instructions :=
    [.createAccount [5] [9] 2100 get_token_size TOKEN_PROGRAM_ID,
     .initAccount3 TOKEN_PROGRAM_ID [9] NATIVE_MINT [5]]
  cleanup_instructions := [.closeAccount [9] [5]]
  token_account_addresses := [(NATIVE_MINT, [9])]
  additional_signers := [[9]]

theorem C3_keypair_wrapping_strategy_witness :
    prepare_token_accounts_instructions envKp [5]
      [TokenAccountStrategy.withBalance NATIVE_MINT 100] = .ok kpResultDemo ∧
    List.countP isCreateAccount kpResultDemo.create_instructions = 1 ∧
    kpResultDemo.cleanup_instructions = [.closeAccount [9] [5]] ∧
    kpResultDemo.additional_signers = [[9]] := by
  have h : prepare_token_accounts_instructions envKp [5]
      [TokenAccountStrategy.withBalance NATIVE_MINT 100] = .ok kpResultDemo := rfl
  obtain ⟨h1, h2, h3, h4, h5, h6⟩ :=
    C3_keypair_wrapping_strategy envKp [5]
      [TokenAccountStrategy.withBalance NATIVE_MINT 100] kpResultDemo rfl
      (by decide) h
  exact ⟨h, h1, h2, h4⟩

theorem fetchAllRequired_forall (env : Env) :
    ∀ (l : List Pubkey) (r : List AccountInfo),
      fetchAllRequired env l = .ok r →
      List.Forall₂ (fun a ai => env.accounts a = some ai) l r := by
  intro l
  induction l with
  | nil =>
    intro r h
    cases h
    exact List.Forall₂.nil
  | cons a rest ih =>
    intro r h
    simp only [fetchAllRequired] at h
    split at h
    · exact Except.noConfusion h
    rename_i ai hai
    split at h
    · exact Except.noConfusion h
    rename_i r' hr'
    cases h
    exact List.Forall₂.cons hai (ih r' hr')

theorem loopCreates_mem_inv (owner : Pubkey) :
    ∀ (l : List (Pubkey × AccountInfo × Pubkey × Option AccountInfo))
      (f a m tp : Pubkey),
      Instruction.createAta f a m tp ∈ loopCreates owner l →
      ∃ ai, (m, ai, a, (none : Option AccountInfo)) ∈ l ∧ f = owner
        ∧ tp = ai.owner := by
  intro l
  induction l with
  | nil =>
    intro f a m tp hmem
    simp [loopCreates] at hmem
  | cons q rest ih =>
    obtain ⟨mint, ai, ata, atai⟩ := q
    intro f a m tp hmem
    cases atai with
    | some v =>
      obtain ⟨ai', hin, hf, htp⟩ := ih f a m tp hmem
      exact ⟨ai', List.mem_cons_of_mem _ hin, hf, htp⟩
    | none =>
      rcases List.mem_cons.mp hmem with heq | h'
      · injection heq with e1 e2 e3 e4
        subst e1
        subst e2
        subst e3
        subst e4
        exact ⟨ai, List.mem_cons_self _ _, rfl, rfl⟩
      · obtain ⟨ai', hin, hf, htp⟩ := ih f a m tp h'
        exact ⟨ai', List.mem_cons_of_mem _ hin, hf, htp⟩

theorem quads_good (env : Env) (owner : Pubkey) :
    ∀ (mas : List Pubkey) (infos : List AccountInfo),
      List.Forall₂ (fun a ai => env.accounts a = some ai) mas infos →
      ∀ q ∈ mas.zip (infos.zip
        ((List.zipWith (fun mint ai =>
            get_associated_token_address_with_program_id owner ai.owner mint)
          mas infos).zip
         (List.map env.accounts
          (List.zipWith (fun mint ai =>
              get_associated_token_address_with_program_id owner ai.owner mint)
            mas infos)))),
      env.accounts q.1 = some q.2.1 ∧
      q.2.2.1 = get_associated_token_address_with_program_id owner q.2.1.owner q.1 ∧
      q.2.2.2 = env.accounts q.2.2.1 := by
  intro mas
  induction mas with
  | nil =>
    intro infos hrel q hq
    simp at hq
  | cons m ms ih =>
    intro infos hrel q hq
    cases hrel with
    | cons hR hrel' =>
      rcases List.mem_cons.mp hq with rfl | hq'
      · exact ⟨hR, rfl, rfl⟩
      · exact ih _ hrel' q hq'

theorem ataFundingCreates_inv (owner : Pubkey) (spec : List TokenAccountStrategy)
    (idx : Nat) (addrMap : List (Pubkey × Pubkey)) (bal : Nat)
    (creates creates' : List Instruction)
    (h : ataFundingCreates owner spec idx addrMap bal creates = .ok creates') :
    creates' = creates ∨ ∃ addr amt,
      creates' = creates ++
        [.systemTransfer owner addr amt, .syncNative TOKEN_PROGRAM_ID addr] := by
  simp only [ataFundingCreates] at h
  repeat split at h
  all_goals first
    | exact Except.noConfusion h
    | (cases h; exact Or.inl rfl)
    | (cases h; exact Or.inr ⟨_, _, rfl⟩)

theorem prepare_createAta_mem (env : Env) (owner : Pubkey)
    (spec : List TokenAccountStrategy) (ta : TokenAccountInstructions)
    (h : prepare_token_accounts_instructions env owner spec = .ok ta)
    (f a m tp : Pubkey)
    (hmem : Instruction.createAta f a m tp ∈ ta.create_instructions) :
    ∃ infos,
      fetchAllRequired env
        ((spec.map strategyMint).filter (fun x => !(x == NATIVE_MINT))) = .ok infos ∧
      Instruction.createAta f a m tp ∈ loopCreates owner
        (((spec.map strategyMint).filter (fun x => !(x == NATIVE_MINT))).zip
          (infos.zip
            ((List.zipWith (fun mint ai =>
                get_associated_token_address_with_program_id owner ai.owner mint)
              ((spec.map strategyMint).filter (fun x => !(x == NATIVE_MINT)))
              infos).zip
             (List.map env.accounts
              (List.zipWith (fun mint ai =>
                  get_associated_token_address_with_program_id owner ai.owner mint)
                ((spec.map strategyMint).filter (fun x => !(x == NATIVE_MINT)))
                infos))))) := by
  simp only [prepare_token_accounts_instructions] at h
  split at h
  · exact Except.noConfusion h
  rename_i infos hfetch
  split at h
  · exact Except.noConfusion h
  rename_i mints hmints
  refine ⟨infos, hfetch, ?_⟩
  simp only [ordinaryLoop_creates, List.nil_append] at h
  rcases hnat : ((spec.map strategyMint).findIdx? (fun x => x == NATIVE_MINT)).isSome
    with _ | _
  · simp only [hnat, Bool.false_eq_true, false_and, if_false] at h
    cases h
    exact hmem
  · simp only [hnat] at h
    rcases hstrat : env.nativeMintWrappingStrategy with _ | _ | _ | _
    · rw [hstrat] at h
      rw [if_neg (show ¬(True ∧ NativeMintWrappingStrategy.none
            = NativeMintWrappingStrategy.keypair) by decide),
          if_neg (show ¬(True ∧ NativeMintWrappingStrategy.none
            = NativeMintWrappingStrategy.seed) by decide),
          if_neg (show ¬(True ∧ NativeMintWrappingStrategy.none
            = NativeMintWrappingStrategy.ata) by decide)] at h
      cases h
      exact hmem
    · rw [hstrat] at h
      rw [if_neg (show ¬(True ∧ NativeMintWrappingStrategy.ata
            = NativeMintWrappingStrategy.keypair) by decide),
          if_neg (show ¬(True ∧ NativeMintWrappingStrategy.ata
            = NativeMintWrappingStrategy.seed) by decide),
          if_pos (show True ∧ NativeMintWrappingStrategy.ata
            = NativeMintWrappingStrategy.ata from ⟨trivial, rfl⟩)] at h
      split at h
      · exact Except.noConfusion h
      rename_i finalLists heq
      cases h
      replace heq := heq.symm
      split at heq
      · exact Except.noConfusion heq
      rename_i account_info hidx
      split at heq
      · exact Except.noConfusion heq
      rename_i existing_balance hbal
      split at heq
      · exact Except.noConfusion heq
      rename_i creates3 hfund
      split at heq
      · exact Except.noConfusion heq
      cases heq
      rcases ataFundingCreates_inv _ _ _ _ _ _ _ hfund with hcr | ⟨addr, amt, hcr⟩
      · rw [hcr] at hmem
        exact hmem
      · rw [hcr] at hmem
        rcases List.mem_append.mp hmem with hin | hin
        · exact hin
        · simp at hin
    · rw [hstrat] at h
      rw [if_pos (show True ∧ NativeMintWrappingStrategy.keypair
            = NativeMintWrappingStrategy.keypair from ⟨trivial, rfl⟩),
          if_neg (show ¬(True ∧ NativeMintWrappingStrategy.keypair
            = NativeMintWrappingStrategy.seed) by decide),
          if_neg (show ¬(True ∧ NativeMintWrappingStrategy.keypair
            = NativeMintWrappingStrategy.ata) by decide)] at h
      cases h
      rcases List.mem_append.mp hmem with hin | hin
      · exact hin
      · simp at hin
    · rw [hstrat] at h
      rw [if_neg (show ¬(True ∧ NativeMintWrappingStrategy.seed
            = NativeMintWrappingStrategy.keypair) by decide),
          if_pos (show True ∧ NativeMintWrappingStrategy.seed
            = NativeMintWrappingStrategy.seed from ⟨trivial, rfl⟩),
          if_neg (show ¬(True ∧ NativeMintWrappingStrategy.seed
            = NativeMintWrappingStrategy.ata) by decide)] at h
      cases h
      rcases List.mem_append.mp hmem with hin | hin
      · exact hin
      · simp at hin

/-- C5: the provisioner never emits a create-associated-token-account
instruction for an ordinary mint whose associated account already exists
on chain (idempotence). -/
theorem C5_no_create_for_existing_ata (env : Env) (owner : Pubkey)
    (spec : List TokenAccountStrategy) (ta : TokenAccountInstructions)
    (m : Pubkey) (mi : AccountInfo)
    (h : prepare_token_accounts_instructions env owner spec = .ok ta)
    (hm : env.accounts m = some mi)
    (hata : env.accounts
      (get_associated_token_address_with_program_id owner mi.owner m) ≠ none) :
    ∀ f a tp, Instruction.createAta f a m tp ∉ ta.create_instructions := by
  intro f a tp hmem
  obtain ⟨infos, hfetch, hloop⟩ :=
    prepare_createAta_mem env owner spec ta h f a m tp hmem
  obtain ⟨ai, hq, hf, htp⟩ := loopCreates_mem_inv owner _ f a m tp hloop
  have hrel := fetchAllRequired_forall env _ _ hfetch
  obtain ⟨hg1, hg2, hg3⟩ := quads_good env owner _ _ hrel _ hq
  rw [hm] at hg1
  injection hg1 with hai
  subst hai
  apply hata
  rw [← hg2]
  exact hg3.symm

/-- Environment where the ordinary mint `[1]` exists and its associated
token account already exists on chain. -/
def envAta5 : Env :=
  { envBase with
    accounts := fun a =>
      if a = [1] then some mintAcc
      else if a = [100, 5, 200, 1] then
        some { owner := TOKEN_PROGRAM_ID, data := .tokenAccount { amount := 50 } }
      else none }

/-- Concrete provisioning result: the existing associated account is reused,
no create instruction is emitted. -/
def ataResultDemo : TokenAccountInstructions where
  create_instructions := []
  cleanup_instructions := []
  token_account_addresses := [([1], [100, 5, 200, 1])]
  additional_signers := []

theorem C5_no_create_for_existing_ata_witness :
    prepare_token_accounts_instructions envAta5 [5]
      [TokenAccountStrategy.withoutBalance [1]] = .ok ataResultDemo ∧
    Instruction.createAta [5] [100, 5, 200, 1] [1] TOKEN_PROGRAM_ID
      ∉ ataResultDemo.create_instructions := by
  refine ⟨rfl, ?_⟩
  exact C5_no_create_for_existing_ata envAta5 [5]
    [TokenAccountStrategy.withoutBalance [1]] ataResultDemo [1] mintAcc rfl
    (by decide) (by decide) [5] [100, 5, 200, 1] TOKEN_PROGRAM_ID

theorem loopCreates_not_dec (owner : Pubkey)
    (l : List (Pubkey × AccountInfo × Pubkey × Option AccountInfo)) :
    ∀ ix ∈ loopCreates owner l, isDecreaseLiquidityV2 ix = false := by
  intro ix hix
  obtain ⟨f, a, m, tp, rfl⟩ := loopCreates_shape owner l ix hix
  rfl

theorem prepare_no_decrease (env : Env) (owner : Pubkey)
    (spec : List TokenAccountStrategy) (ta : TokenAccountInstructions)
    (h : prepare_token_accounts_instructions env owner spec = .ok ta) :
    (∀ ix ∈ ta.create_instructions, isDecreaseLiquidityV2 ix = false) ∧
    (∀ ix ∈ ta.cleanup_instructions, isDecreaseLiquidityV2 ix = false) := by
  simp only [prepare_token_accounts_instructions] at h
  split at h
  · exact Except.noConfusion h
  rename_i infos hfetch
  split at h
  · exact Except.noConfusion h
  rename_i mints hmints
  simp only [ordinaryLoop_creates, List.nil_append] at h
  rcases hnat : ((spec.map strategyMint).findIdx? (fun x => x == NATIVE_MINT)).isSome
    with _ | _
  · simp only [hnat, Bool.false_eq_true, false_and, if_false] at h
    cases h
    refine ⟨loopCreates_not_dec owner _, ?_⟩
    intro ix hix
    simp at hix
  · simp only [hnat] at h
    rcases hstrat : env.nativeMintWrappingStrategy with _ | _ | _ | _
    · rw [hstrat] at h
      rw [if_neg (show ¬(True ∧ NativeMintWrappingStrategy.none
            = NativeMintWrappingStrategy.keypair) by decide),
          if_neg (show ¬(True ∧ NativeMintWrappingStrategy.none
            = NativeMintWrappingStrategy.seed) by decide),
          if_neg (show ¬(True ∧ NativeMintWrappingStrategy.none
            = NativeMintWrappingStrategy.ata) by decide)] at h
      cases h
      refine ⟨loopCreates_not_dec owner _, ?_⟩
      intro ix hix
      simp at hix
    · rw [hstrat] at h
      rw [if_neg (show ¬(True ∧ NativeMintWrappingStrategy.ata
            = NativeMintWrappingStrategy.keypair) by decide),
          if_neg (show ¬(True ∧ NativeMintWrappingStrategy.ata
            = NativeMintWrappingStrategy.seed) by decide),
          if_pos (show True ∧ NativeMintWrappingStrategy.ata
            = NativeMintWrappingStrategy.ata from ⟨trivial, rfl⟩)] at h
      split at h
      · exact Except.noConfusion h
      rename_i finalLists heq
      cases h
      replace heq := heq.symm
      split at heq
      · exact Except.noConfusion heq
      rename_i account_info hidx
      split at heq
      · exact Except.noConfusion heq
      rename_i existing_balance hbal
      split at heq
      · exact Except.noConfusion heq
      rename_i creates3 hfund
      split at heq
      · exact Except.noConfusion heq
      cases heq
      constructor
      · intro ix hix
        rcases ataFundingCreates_inv _ _ _ _ _ _ _ hfund with hcr | ⟨addr, amt, hcr⟩
        · rw [hcr] at hix
          exact loopCreates_not_dec owner _ ix hix
        · rw [hcr] at hix
          rcases List.mem_append.mp hix with hin | hin
          · exact loopCreates_not_dec owner _ ix hin
          · rcases List.mem_cons.mp hin with rfl | hin
            · rfl
            · rcases List.mem_cons.mp hin with rfl | hin
              · rfl
              · simp at hin
      · intro ix hix
        simp at hix
    · rw [hstrat] at h
      rw [if_pos (show True ∧ NativeMintWrappingStrategy.keypair
            = NativeMintWrappingStrategy.keypair from ⟨trivial, rfl⟩),
          if_neg (show ¬(True ∧ NativeMintWrappingStrategy.keypair
            = NativeMintWrappingStrategy.seed) by decide),
          if_neg (show ¬(True ∧ NativeMintWrappingStrategy.keypair
            = NativeMintWrappingStrategy.ata) by decide)] at h
      cases h
      constructor
      · intro ix hix
        rcases List.mem_append.mp hix with hin | hin
        · exact loopCreates_not_dec owner _ ix hin
        · rcases List.mem_cons.mp hin with rfl | hin
          · rfl
          · rcases List.mem_cons.mp hin with rfl | hin
            · rfl
            · simp at hin
      · intro ix hix
        rcases List.mem_cons.mp hix with rfl | hin
        · rfl
        · simp at hin
    · rw [hstrat] at h
      rw [if_neg (show ¬(True ∧ NativeMintWrappingStrategy.seed
            = NativeMintWrappingStrategy.keypair) by decide),
          if_pos (show True ∧ NativeMintWrappingStrategy.seed
            = NativeMintWrappingStrategy.seed from ⟨trivial, rfl⟩),
          if_neg (show ¬(True ∧ NativeMintWrappingStrategy.seed
            = NativeMintWrappingStrategy.ata) by decide)] at h
      cases h
      constructor
      · intro ix hix
        rcases List.mem_append.mp hix with hin | hin
        · exact loopCreates_not_dec owner _ ix hin
        · rcases List.mem_cons.mp hin with rfl | hin
          · rfl
          · rcases List.mem_cons.mp hin with rfl | hin
            · rfl
            · simp at hin
      · intro ix hix
        rcases List.mem_append.mp hix with hin | hin
        · simp at hin
        · rcases List.mem_cons.mp hin with rfl | hin
          · rfl
          · simp at hin

/-- C8: every successful `decrease_liquidity_instructions` batch is ordered
as all provisioning create instructions, then the single decrease-liquidity
protocol instruction, then all cleanup instructions. -/
theorem C8_decrease_sandwich (env : Env) (position_mint_address : Pubkey)
    (param : DecreaseLiquidityParam) (slippage_tolerance_bps : Option Nat)
    (authority : Option Pubkey) (r : DecreaseLiquidityInstruction)
    (h : decrease_liquidity_instructions env position_mint_address param
      slippage_tolerance_bps authority = .ok r) :
    ∃ position_info position pool_info pool ta d,
      env.accounts (get_position_address position_mint_address)
        = some position_info ∧
      positionFromBytes position_info.data = .ok position ∧
      env.accounts position.whirlpool = some pool_info ∧
      whirlpoolFromBytes pool_info.data = .ok pool ∧
      prepare_token_accounts_instructions env (authority.getD env.funder)
        [.withoutBalance pool.token_mint_a, .withoutBalance pool.token_mint_b]
        = .ok ta ∧
      r.instructions = ta.create_instructions ++ [d] ++ ta.cleanup_instructions ∧
      isDecreaseLiquidityV2 d = true ∧
      List.countP isDecreaseLiquidityV2 r.instructions = 1 ∧
      r.additional_signers = ta.additional_signers := by
  simp only [decrease_liquidity_instructions] at h
  split at h
  · exact Except.noConfusion h
  split at h
  · exact Except.noConfusion h
  rename_i position_info hpos
  split at h
  · exact Except.noConfusion h
  rename_i position hposd
  split at h
  · exact Except.noConfusion h
  rename_i pool_info hpool
  split at h
  · exact Except.noConfusion h
  rename_i pool hpoold
  split at h
  · exact Except.noConfusion h
  rename_i mint_a_info hma
  split at h
  · exact Except.noConfusion h
  rename_i mint_b_info hmb
  split at h
  · exact Except.noConfusion h
  rename_i position_mint_info hpm
  split at h
  · exact Except.noConfusion h
  rename_i quote hquote
  split at h
  · exact Except.noConfusion h
  rename_i ta hprep
  split at h
  · exact Except.noConfusion h
  rename_i token_owner_account_a hla
  split at h
  · exact Except.noConfusion h
  rename_i token_owner_account_b hlb
  cases h
  obtain ⟨hc, hk⟩ := prepare_no_decrease env _ _ ta hprep
  have h1 : List.countP isDecreaseLiquidityV2 ta.create_instructions = 0 :=
    List.countP_eq_zero.mpr (fun a ha hh => by
      rw [hc a ha] at hh
      exact Bool.noConfusion hh)
  have h2 : List.countP isDecreaseLiquidityV2 ta.cleanup_instructions = 0 :=
    List.countP_eq_zero.mpr (fun a ha hh => by
      rw [hk a ha] at hh
      exact Bool.noConfusion hh)
  refine ⟨position_info, position, pool_info, pool, ta, _,
    hpos, hposd, hpool, hpoold, hprep, rfl, rfl, ?_, rfl⟩
  rw [List.countP_append, List.countP_append, h1, h2]
  rfl

/-- Demo whirlpool state for the decrease-liquidity scenario. -/
def poolDemo : WhirlpoolData where
  discriminator := []
  whirlpools_config := [30]
  whirlpool_bump := []
  tick_spacing := 64
  tick_spacing_seed := []
  fee_rate := 300
  protocol_fee_rate := 25
  liquidity := 0
  sqrt_price := 100
  tick_current_index := 0
  protocol_fee_owed_a := 0
  protocol_fee_owed_b := 0
  token_mint_a := [21]
  token_vault_a := [23]
  fee_growth_global_a := 0
  token_mint_b := [22]
  token_vault_b := [24]
  fee_growth_global_b := 0
  reward_last_updated_timestamp := 0
  reward_infos := []

/-- Demo position account for the decrease-liquidity scenario. -/
def posAccDemo : AccountInfo where
  owner := [202]
  data := .position
    { whirlpool := [20], tick_lower_index := -10, tick_upper_index := 10 }

/-- Demo pool account for the decrease-liquidity scenario. -/
def poolAccDemo : AccountInfo where
  owner := [202]
  data := .whirlpool poolDemo

/-- Environment where position mint `[2]`, its position and pool, and both
pool mints exist, and the quote collaborator answers. -/
def env8 : Env :=
  { envBase with
    accounts := fun a =>
      if a = [101, 2] then some posAccDemo
      else if a = [20] then some poolAccDemo
      else if a = [21] ∨ a = [22] ∨ a = [2] then some mintAcc
      else none,
    decrease_liquidity_quote_fn := fun amount _ _ _ _ _ _ =>
      .ok { liquidity_delta := amount, token_est_a := 3, token_est_b := 4,
            token_min_a := 1, token_min_b := 2 } }

/-- The associated token accounts the scenario derives. -/
def ata21 : Pubkey := 100 :: PUBKEY_DEFAULT ++ TOKEN_PROGRAM_ID ++ [21]

def ata22 : Pubkey := 100 :: PUBKEY_DEFAULT ++ TOKEN_PROGRAM_ID ++ [22]

def posAta8 : Pubkey := 100 :: PUBKEY_DEFAULT ++ [2] ++ TOKEN_PROGRAM_ID

/-- The concrete decrease-liquidity batch for the scenario. -/
def r8 : DecreaseLiquidityInstruction where
  quote := { liquidity_delta := 5, token_est_a := 3, token_est_b := 4,
             token_min_a := 1, token_min_b := 2 }
  instructions :=
    [.createAta PUBKEY_DEFAULT ata21 [21] TOKEN_PROGRAM_ID,
     .createAta PUBKEY_DEFAULT ata22 [22] TOKEN_PROGRAM_ID,
     .decreaseLiquidityV2 [20] TOKEN_PROGRAM_ID TOKEN_PROGRAM_ID SPL_MEMO_ID
       PUBKEY_DEFAULT [101, 2] posAta8 [21] [22] ata21 ata22 [23] [24]
       (get_tick_array_address [20] 0) (get_tick_array_address [20] 0) 5 1 2]
  additional_signers := []

theorem C8_decrease_sandwich_witness :
    decrease_liquidity_instructions env8 [2] (.liquidity 5) none none = .ok r8 ∧
    List.countP isDecreaseLiquidityV2 r8.instructions = 1 := by
  have h : decrease_liquidity_instructions env8 [2] (.liquidity 5) none none
      = .ok r8 := rfl
  obtain ⟨_, _, _, _, _, _, -, -, -, -, -, -, -, hcount, -⟩ :=
    C8_decrease_sandwich env8 [2] (.liquidity 5) none none r8 h
  exact ⟨h, hcount⟩

/-- Environment with the `Ata` wrapping strategy and no accounts. -/
def envAta4 : Env := { envBase with nativeMintWrappingStrategy := .ata }

/-- `Ata` strategy; ordinary mint `[1]` exists and its associated account
holds 1000 (well above the native requirement), while the native-mint
associated account does not exist at all. -/
def envAta4w : Env :=
  { envAta4 with
    accounts := fun a =>
      if a = [1] then some mintAcc
      else if a = [100, 5, 200, 1] then
        some { owner := TOKEN_PROGRAM_ID, data := .tokenAccount { amount := 1000 } }
      else none }

/-- As `envAta4w` but the ordinary mint's associated account holds only 50. -/
def envAta4s : Env :=
  { envAta4 with
    accounts := fun a =>
      if a = [1] then some mintAcc
      else if a = [100, 5, 200, 1] then
        some { owner := TOKEN_PROGRAM_ID, data := .tokenAccount { amount := 50 } }
      else none }

/-- The result of the second `Ata` scenario: no funding transfer, no sync,
and no cleanup are emitted even though the native associated account does
not exist and holds less than the required balance. -/
def ata4Result : TokenAccountInstructions where
  create_instructions := []
  cleanup_instructions := []
  token_account_addresses := [([1], [100, 5, 200, 1])]
  additional_signers := []

/-- C4 (divergence evidence): the `Ata` native-wrapping branch indexes the
ata-info list (which excludes the native mint) at the native mint's position
in the unfiltered strategy list and looks `NATIVE_MINT` up in a map that is
never populated on this path.  A lone native entry panics with an
out-of-bounds index regardless of on-chain state; with an ordinary mint
after the native entry, the branch inspects the wrong account's balance, so
it either skips the funding transfer, the sync, and the cleanup entirely, or
panics on the missing map key — never the behavior the claim describes. -/
theorem C4_ata_wrapping_broken :
    prepare_token_accounts_instructions envAta4 [5]
      [TokenAccountStrategy.withBalance NATIVE_MINT 100]
      = .error "panic: index out of bounds" ∧
    prepare_token_accounts_instructions envAta4w [5]
      [TokenAccountStrategy.withBalance NATIVE_MINT 100,
       TokenAccountStrategy.withoutBalance [1]]
      = .ok ata4Result ∧
    prepare_token_accounts_instructions envAta4s [5]
      [TokenAccountStrategy.withBalance NATIVE_MINT 100,
       TokenAccountStrategy.withoutBalance [1]]
      = .error "panic: no entry found for key NATIVE\x5fMINT" :=
  ⟨rfl, rfl, rfl⟩

theorem buildPools_spec (env : Env) (cfgAddr : Pubkey) (cfg : WhirlpoolsConfigData)
    (ta tb : Pubkey) (ma mb : MintData) :
    ∀ (infos : List (Option AccountInfo)) (fts : List FeeTierData)
      (ps : List PoolInfo),
      buildPools env cfgAddr cfg ta tb ma mb infos fts = .ok ps →
      ps.length = infos.length ∧
      ∀ i (h1 : i < ps.length) (h2 : i < fts.length) (h3 : i < infos.length),
        (infos.get ⟨i, h3⟩ = none →
          ps.get ⟨i, h1⟩ = PoolInfo.Uninitialized
            { whirlpools_config := cfgAddr,
              tick_spacing := (fts.get ⟨i, h2⟩).tick_spacing,
              fee_rate := (fts.get ⟨i, h2⟩).default_fee_rate,
              protocol_fee_rate := cfg.default_protocol_fee_rate,
              token_mint_a := ta, token_mint_b := tb }) ∧
        (∀ wi, infos.get ⟨i, h3⟩ = some wi →
          ∃ ip, ps.get ⟨i, h1⟩ = PoolInfo.Initialized ip ∧
            initializedPoolFromBytes env wi.data ma mb = .ok ip) := by
  intro infos
  induction infos with
  | nil =>
    intro fts ps h
    cases h
    refine ⟨rfl, ?_⟩
    intro i h1 h2 h3
    simp only [List.length_nil] at h3
    omega
  | cons oi rest ih =>
    intro fts ps h
    cases fts with
    | nil =>
      cases oi with
      | some pool_info => exact Except.noConfusion h
      | none => exact Except.noConfusion h
    | cons ft fts' =>
      cases oi with
      | some pool_info =>
        simp only [buildPools] at h
        split at h
        · exact Except.noConfusion h
        rename_i p hdec
        split at h
        · exact Except.noConfusion h
        rename_i l hrec
        cases h
        obtain ⟨hlen, hidx⟩ := ih fts' l hrec
        refine ⟨by simp [hlen], ?_⟩
        intro i h1 h2 h3
        cases i with
        | zero =>
          constructor
          · intro hn
            exact Option.noConfusion hn
          · intro wi hw
            injection hw with hw
            subst hw
            exact ⟨p, rfl, hdec⟩
        | succ n =>
          have h1' : n < l.length := by
            simp only [List.length_cons] at h1
            omega
          have h2' : n < fts'.length := by
            simp only [List.length_cons] at h2
            omega
          have h3' : n < rest.length := by
            simp only [List.length_cons] at h3
            omega
          exact hidx n h1' h2' h3'
      | none =>
        simp only [buildPools] at h
        split at h
        · exact Except.noConfusion h
        rename_i l hrec
        cases h
        obtain ⟨hlen, hidx⟩ := ih fts' l hrec
        refine ⟨by simp [hlen], ?_⟩
        intro i h1 h2 h3
        cases i with
        | zero =>
          constructor
          · intro hn
            rfl
          · intro wi hw
            exact Option.noConfusion hw
        | succ n =>
          have h1' : n < l.length := by
            simp only [List.length_cons] at h1
            omega
          have h2' : n < fts'.length := by
            simp only [List.length_cons] at h2
            omega
          have h3' : n < rest.length := by
            simp only [List.length_cons] at h3
            omega
          exact hidx n h1' h2' h3'


/-- C7: pool discovery canonicalizes the mint order before address
derivation (both entry points are symmetric in their mint arguments), and
each returned entry is the decoded `Initialized` state when the pool
account exists, or an `Uninitialized` projection carrying the matching fee
tier's default fee rate, the config's default protocol fee rate, and the
canonically ordered mints. -/
theorem C7_pool_discovery (env : Env) (token_1 token_2 : Pubkey)
    (tick_spacing : Nat) :
    (fetch_concentrated_liquidity_pool env token_1 token_2 tick_spacing
      = fetch_concentrated_liquidity_pool env token_2 token_1 tick_spacing) ∧
    (∀ u, fetch_concentrated_liquidity_pool env token_1 token_2 tick_spacing
        = .ok (.Uninitialized u) →
      ∃ cfg_info cfg ft_info ft,
        env.accounts env.whirlpoolsConfigAddress = some cfg_info ∧
        whirlpoolsConfigFromBytes cfg_info.data = .ok cfg ∧
        env.accounts (get_fee_tier_address env.whirlpoolsConfigAddress
          tick_spacing) = some ft_info ∧
        feeTierFromBytes ft_info.data = .ok ft ∧
        u.fee_rate = ft.default_fee_rate ∧
        u.protocol_fee_rate = cfg.default_protocol_fee_rate ∧
        u.token_mint_a = (order_mints token_1 token_2).1 ∧
        u.token_mint_b = (order_mints token_1 token_2).2 ∧
        u.tick_spacing = tick_spacing ∧
        env.accounts (get_whirlpool_address env.whirlpoolsConfigAddress
          (order_mints token_1 token_2).1 (order_mints token_1 token_2).2
          tick_spacing) = none) ∧
    (∀ ip, fetch_concentrated_liquidity_pool env token_1 token_2 tick_spacing
        = .ok (.Initialized ip) →
      ∃ wi ma_info ma mb_info mb,
        env.accounts (get_whirlpool_address env.whirlpoolsConfigAddress
          (order_mints token_1 token_2).1 (order_mints token_1 token_2).2
          tick_spacing) = some wi ∧
        env.accounts (order_mints token_1 token_2).1 = some ma_info ∧
        unpackMint ma_info.data = .ok ma ∧
        env.accounts (order_mints token_1 token_2).2 = some mb_info ∧
        unpackMint mb_info.data = .ok mb ∧
        initializedPoolFromBytes env wi.data ma mb = .ok ip) ∧
    (fetch_whirlpools_by_token_pair env token_1 token_2
      = fetch_whirlpools_by_token_pair env token_2 token_1) ∧
    (∀ ps, fetch_whirlpools_by_token_pair env token_1 token_2 = .ok ps →
      ∃ fts cfg_info cfg ma_info ma mb_info mb,
        decodeFeeTiers env.programFeeTierAccounts = .ok fts ∧
        env.accounts env.whirlpoolsConfigAddress = some cfg_info ∧
        whirlpoolsConfigFromBytes cfg_info.data = .ok cfg ∧
        env.accounts (order_mints token_1 token_2).1 = some ma_info ∧
        unpackMint ma_info.data = .ok ma ∧
        env.accounts (order_mints token_1 token_2).2 = some mb_info ∧
        unpackMint mb_info.data = .ok mb ∧
        ps.length = fts.length ∧
        ∀ i (h1 : i < ps.length) (h2 : i < fts.length),
          (env.accounts (get_whirlpool_address env.whirlpoolsConfigAddress
              (order_mints token_1 token_2).1 (order_mints token_1 token_2).2
              (fts.get ⟨i, h2⟩).tick_spacing) = none →
            ps.get ⟨i, h1⟩ = PoolInfo.Uninitialized
              { whirlpools_config := env.whirlpoolsConfigAddress,
                tick_spacing := (fts.get ⟨i, h2⟩).tick_spacing,
                fee_rate := (fts.get ⟨i, h2⟩).default_fee_rate,
                protocol_fee_rate := cfg.default_protocol_fee_rate,
                token_mint_a := (order_mints token_1 token_2).1,
                token_mint_b := (order_mints token_1 token_2).2 }) ∧
          (∀ wi, env.accounts (get_whirlpool_address env.whirlpoolsConfigAddress
              (order_mints token_1 token_2).1 (order_mints token_1 token_2).2
              (fts.get ⟨i, h2⟩).tick_spacing) = some wi →
            ∃ ip, ps.get ⟨i, h1⟩ = PoolInfo.Initialized ip ∧
              initializedPoolFromBytes env wi.data ma mb = .ok ip)) := by
  refine ⟨?_, ?_, ?_, ?_, ?_⟩
  · simp only [fetch_concentrated_liquidity_pool]
    rw [order_mints_comm token_1 token_2]
  · intro u hok
    simp only [fetch_concentrated_liquidity_pool] at hok
    split at hok
    · exact Except.noConfusion hok
    rename_i cfg_info hcfga
    split at hok
    · exact Except.noConfusion hok
    rename_i cfg hcfgd
    split at hok
    · exact Except.noConfusion hok
    rename_i ft_info hfta
    split at hok
    · exact Except.noConfusion hok
    rename_i ft hftd
    split at hok
    · exact Except.noConfusion hok
    rename_i ma_info hmaa
    split at hok
    · exact Except.noConfusion hok
    rename_i ma hmad
    split at hok
    · exact Except.noConfusion hok
    rename_i mb_info hmba
    split at hok
    · exact Except.noConfusion hok
    rename_i mb hmbd
    split at hok
    · rename_i wi hwi
      split at hok
      · exact Except.noConfusion hok
      rename_i p hdec
      injection hok with hok
      exact PoolInfo.noConfusion hok
    · rename_i hwi
      injection hok with hok
      injection hok with hok
      subst hok
      exact ⟨cfg_info, cfg, ft_info, ft, hcfga, hcfgd, hfta, hftd,
        rfl, rfl, rfl, rfl, rfl, hwi⟩
  · intro ip hok
    simp only [fetch_concentrated_liquidity_pool] at hok
    split at hok
    · exact Except.noConfusion hok
    rename_i cfg_info hcfga
    split at hok
    · exact Except.noConfusion hok
    rename_i cfg hcfgd
    split at hok
    · exact Except.noConfusion hok
    rename_i ft_info hfta
    split at hok
    · exact Except.noConfusion hok
    rename_i ft hftd
    split at hok
    · exact Except.noConfusion hok
    rename_i ma_info hmaa
    split at hok
    · exact Except.noConfusion hok
    rename_i ma hmad
    split at hok
    · exact Except.noConfusion hok
    rename_i mb_info hmba
    split at hok
    · exact Except.noConfusion hok
    rename_i mb hmbd
    split at hok
    · rename_i wi hwi
      split at hok
      · exact Except.noConfusion hok
      rename_i p hdec
      injection hok with hok
      injection hok with hok
      subst hok
      exact ⟨wi, ma_info, ma, mb_info, mb, hwi, hmaa, hmad, hmba, hmbd, hdec⟩
    · rename_i hwi
      injection hok with hok
      exact PoolInfo.noConfusion hok
  · simp only [fetch_whirlpools_by_token_pair]
    rw [order_mints_comm token_1 token_2]
  · intro ps hok
    simp only [fetch_whirlpools_by_token_pair] at hok
    split at hok
    · exact Except.noConfusion hok
    rename_i fts hfts
    split at hok
    · exact Except.noConfusion hok
    rename_i cfg_info hcfga
    split at hok
    · exact Except.noConfusion hok
    rename_i cfg hcfgd
    split at hok
    · exact Except.noConfusion hok
    rename_i ma_info hmaa
    split at hok
    · exact Except.noConfusion hok
    rename_i ma hmad
    split at hok
    · exact Except.noConfusion hok
    rename_i mb_info hmba
    split at hok
    · exact Except.noConfusion hok
    rename_i mb hmbd
    obtain ⟨hlen, hidx⟩ := buildPools_spec env env.whirlpoolsConfigAddress cfg
      (order_mints token_1 token_2).1 (order_mints token_1 token_2).2 ma mb
      _ _ _ hok
    refine ⟨fts, cfg_info, cfg, ma_info, ma, mb_info, mb, hfts, hcfga, hcfgd,
      hmaa, hmad, hmba, hmbd, ?_, ?_⟩
    · rw [hlen]
      simp
    · intro i h1 h2
      have h3 : i < ((fts.map (fun ft => get_whirlpool_address
          env.whirlpoolsConfigAddress (order_mints token_1 token_2).1
          (order_mints token_1 token_2).2 ft.tick_spacing)).map
          env.accounts).length := by
        simp
        omega
      have hget : ((fts.map (fun ft => get_whirlpool_address
          env.whirlpoolsConfigAddress (order_mints token_1 token_2).1
          (order_mints token_1 token_2).2 ft.tick_spacing)).map
          env.accounts).get ⟨i, h3⟩
          = env.accounts (get_whirlpool_address env.whirlpoolsConfigAddress
              (order_mints token_1 token_2).1 (order_mints token_1 token_2).2
              (fts.get ⟨i, h2⟩).tick_spacing) := by
        simp [List.get_eq_getElem, List.getElem_map]
      obtain ⟨hu, hi⟩ := hidx i h1 h2 h3
      constructor
      · intro hnone
        apply hu
        rw [hget]
        exact hnone
      · intro wi hwi
        apply hi wi
        rw [hget]
        exact hwi

/-- Demo whirlpools-config account. -/
def cfgAccDemo : AccountInfo where
  owner := [202]
  data := .whirlpoolsConfig { default_protocol_fee_rate := 25 }

/-- Demo fee-tier account (tick spacing 64, default fee rate 300). -/
def ftAccDemo : AccountInfo where
  owner := [202]
  data := .feeTier { tick_spacing := 64, default_fee_rate := 300 }

/-- Environment for pool discovery: config, one fee tier and both mints
exist; the pool account itself does not. -/
def env7 : Env :=
  { envBase with
    accounts := fun a =>
      if a = [30] then some cfgAccDemo
      else if a = [103, 30, 64] then some ftAccDemo
      else if a = [21] ∨ a = [22] then some mintAcc
      else none,
    programFeeTierAccounts := [([103, 30, 64], ftAccDemo)] }

/-- The synthesized uninitialized-pool projection the discovery returns. -/
def u7 : UninitializedPool where
  whirlpools_config := [30]
  tick_spacing := 64
  fee_rate := 300
  protocol_fee_rate := 25
  token_mint_a := [21]
  token_mint_b := [22]

theorem C7_pool_discovery_witness :
    (fetch_concentrated_liquidity_pool env7 [22] [21] 64
      = fetch_concentrated_liquidity_pool env7 [21] [22] 64) ∧
    (fetch_concentrated_liquidity_pool env7 [22] [21] 64
      = .ok (.Uninitialized u7)) ∧
    u7.token_mint_a = (order_mints [22] [21]).1 ∧
    u7.token_mint_b = (order_mints [22] [21]).2 ∧
    u7.fee_rate = 300 ∧
    u7.protocol_fee_rate = 25 ∧
    (fetch_whirlpools_by_token_pair env7 [22] [21]
      = .ok [PoolInfo.Uninitialized u7]) := by
  obtain ⟨h1, h2, h3, h4, h5⟩ := C7_pool_discovery env7 [22] [21] 64
  have hu := h2 u7 rfl
  obtain ⟨_, _, _, _, -, -, -, -, -, -, hta, htb, -, -⟩ := hu
  exact ⟨h1, rfl, hta, htb, rfl, rfl, rfl⟩
